import Mathlib

/-!
Verification development for the stack unwinder of a goroutine-aware
debugger (`pkg/proc/stack.go` together with the arm64 architecture
adapter). The Go code is shallowly embedded: machine integers (`uint64`,
`int64`) are modelled as `Nat` and `Int` with explicit conversions at the
points where the source performs casts, memory and the external DWARF /
symbol-table collaborators are modelled as oracle fields of a `World`
structure, and the mutable `stackIterator` is threaded explicitly.
-/

namespace DelveStack

/-- Interpretation of the Go cast `uint64(x)` for an `int64` value modelled
as `Int`: reduce modulo 2^64 into `Nat`. -/
def toUint64 (x : Int) : Nat := (x % (2 ^ 64 : Int)).toNat

/-- Interpretation of the Go cast `int64(x)` for a `uint64` value modelled
as `Nat`: values at or above 2^63 become negative. -/
def toInt64 (x : Nat) : Int :=
  if x < 2 ^ 63 then (x : Int) else (x : Int) - 2 ^ 64

/-- One DWARF register value (`op.DwarfRegister`); only the `Uint64Val`
field participates in the unwinder logic modelled here. -/
structure DwarfRegister where
  uint64Val : Nat
  deriving DecidableEq, Repr

/-- Model of `op.DwarfRegisterFromUint64`. -/
def DwarfRegisterFromUint64 (v : Nat) : DwarfRegister := ⟨v⟩

/-- Model of `op.DwarfRegisters`: an indexed register file with special
register indices, a static base and the CFA / frame-base slots. The
`ByteOrder` and `ChangeFunc` fields of the source are external concerns
and are not represented. -/
structure DwarfRegisters where
  staticBase : Nat
  regs : Nat → Option DwarfRegister
  pcRegNum : Nat
  spRegNum : Nat
  bpRegNum : Nat
  lrRegNum : Nat
  cfa : Int
  frameBase : Int

/-- Model of `DwarfRegisters.Reg`. -/
def DwarfRegisters.reg (rs : DwarfRegisters) (n : Nat) : Option DwarfRegister :=
  rs.regs n

/-- Model of `DwarfRegisters.AddReg` (storing `none` models adding a nil
register pointer). -/
def DwarfRegisters.addReg (rs : DwarfRegisters) (n : Nat) (r : Option DwarfRegister) :
    DwarfRegisters :=
  { rs with regs := fun m => if m = n then r else rs.regs m }

/-- Model of `DwarfRegisters.Uint64Val`: the value of register `n`, zero
when the register is absent. -/
def DwarfRegisters.uint64Val (rs : DwarfRegisters) (n : Nat) : Nat :=
  match rs.regs n with
  | some r => r.uint64Val
  | none => 0

/-- Model of in-place mutation `rs.Reg(n).Uint64Val = v` (the source
assumes the register is present; the model stores the value at `n`
unconditionally). -/
def DwarfRegisters.setRegVal (rs : DwarfRegisters) (n : Nat) (v : Nat) : DwarfRegisters :=
  rs.addReg n (some ⟨v⟩)

/-- Model of `DwarfRegisters.SP()`. -/
def DwarfRegisters.SP (rs : DwarfRegisters) : Nat := rs.uint64Val rs.spRegNum

/-- Model of `DwarfRegisters.PC()`. -/
def DwarfRegisters.PC (rs : DwarfRegisters) : Nat := rs.uint64Val rs.pcRegNum

/-- Model of `DwarfRegisters.BP()`. -/
def DwarfRegisters.BP (rs : DwarfRegisters) : Nat := rs.uint64Val rs.bpRegNum

/-- The all-zero `op.DwarfRegisters{}` value. -/
def emptyDwarfRegisters : DwarfRegisters :=
  { staticBase := 0, regs := fun _ => none, pcRegNum := 0, spRegNum := 0,
    bpRegNum := 0, lrRegNum := 0, cfa := 0, frameBase := 0 }

/-- Model of `proc.Function`: name, entry/end PCs and the DWARF offset.
The compile-unit back reference is replaced by `World` oracles keyed on
the function value. -/
structure Function where
  name : String
  entry : Nat
  fnEnd : Nat
  offset : Nat
  deriving DecidableEq, Repr

/-- Model of `proc.Location`. -/
structure Location where
  pc : Nat
  file : String
  line : Int
  fn : Option Function
  deriving DecidableEq, Repr

/-- Model of `proc.Defer`. The `link` pointer is represented externally:
a defer chain is a `List Defer` whose tail stands for the nodes reachable
through `link`. `Unreadable` is the error message, `none` when readable.
The `DwrapPC`, `DeferPC`, `argSz` and `variable` fields do not participate
in the correlation logic modelled here and are omitted. -/
structure Defer where
  sp : Nat
  rangefunc : List Defer
  unreadable : Option String
  deriving Repr

/-- Model of `errSPDecreased`. -/
def errSPDecreased : String := "corrupted defer list: SP decreased"

/-- Model of `(*Defer).topdefer`. -/
def Defer.topdefer (d : Defer) : Defer :=
  match d.rangefunc with
  | x :: _ => x
  | [] => d

/-- Model of `(*Defer).Next` on a chain: load the next node (its fields
are already present in the list representation) and mark it unreadable
with `errSPDecreased` when its SP is smaller than the current node's SP.
Returns the loaded node and the remaining chain. -/
def Defer.Next (d : Defer) : List Defer → Option Defer × List Defer
  | [] => (none, [])
  | d' :: rest =>
    (some { d' with unreadable := if d'.sp < d.sp then some errSPDecreased else d'.unreadable },
     rest)

/-- Model of `maxRangeFuncDefers`. -/
def maxRangeFuncDefers : Nat := 10

/-- Model of the `rangefunc` loading loop at the end of `(*Defer).load`
(the `canrecur` branch): walk the nested defer chain, appending each node,
stopping when the link is nil or the accumulated list length exceeds
`maxRangeFuncDefers`. The surrounding variable reads are external. -/
def Defer.loadRangefuncGo (acc : List Defer) : List Defer → List Defer
  | [] => acc
  | hd :: rest =>
    let acc' := acc ++ [hd]
    match rest with
    | [] => acc'
    | _ =>
      if acc'.length > maxRangeFuncDefers then acc'
      else Defer.loadRangefuncGo acc' rest

/-- The `rangefunc` list produced by `(*Defer).load` for a nested chain. -/
def Defer.loadRangefunc (chain : List Defer) : List Defer :=
  Defer.loadRangefuncGo [] chain

/-- Errors surfaced by the iterator (`it.err`); messages are collapsed to
constructors. -/
inductive StackErr where
  | nullAddr
  | cfaUndefined (pc : Nat)
  | undefinedReturnAddr (pc : Nat)
  | architectural
  | memRead
  | exprFailed
  | nilGoroutine
  | lrNilDuringSwitch
  | negativeDepth
  deriving DecidableEq, Repr

/-- Model of `proc.Stackframe`. -/
structure Stackframe where
  current : Location
  call : Location
  regs : DwarfRegisters
  stackHi : Nat
  ret : Nat
  err : Option StackErr
  systemStack : Bool
  inlined : Bool
  hasInlines : Bool
  bottom : Bool
  lastpc : Nat
  closurePtr : Int
  topmostDefer : Option Defer
  defers : List Defer

/-- The zero value `Stackframe{}`. -/
def emptyStackframe : Stackframe :=
  { current := ⟨0, "", 0, none⟩, call := ⟨0, "", 0, none⟩,
    regs := emptyDwarfRegisters, stackHi := 0, ret := 0, err := none,
    systemStack := false, inlined := false, hasInlines := false,
    bottom := false, lastpc := 0, closurePtr := 0, topmostDefer := none,
    defers := [] }

/-- Model of `(*Stackframe).contains`: true when the stack-relative offset
lies between SP (exclusive) and CFA (inclusive). -/
def Stackframe.contains (fr : Stackframe) (off : Int) : Bool :=
  let p := toUint64 (off + (fr.stackHi : Int))
  decide (fr.regs.SP < p) && decide (p ≤ toUint64 fr.regs.cfa)

/-- Model of `proc.G` (only the fields the unwinder reads). -/
structure G where
  id : Nat
  pc : Nat
  sp : Nat
  bp : Nat
  lr : Nat
  stackLo : Nat
  stackHi : Nat
  systemStack : Bool
  deriving DecidableEq, Repr

/-- Model of `frame.DWRule`: the tagged rule variants. The source stores
the variants in one struct with `Rule`, `Offset`, `Reg` and `Expression`
fields; constructors carry the fields their case reads. -/
inductive DWRule where
  | undefined
  | sameVal
  | offset (off : Int)
  | valOffset (off : Int)
  | register (reg : Nat)
  | expression (expr : List Nat)
  | valExpression (expr : List Nat)
  | architectural
  | cfaRule (reg : Nat) (off : Int)
  | framePointer (reg : Nat)
  deriving DecidableEq, Repr

/-- The `Offset` struct field of a `DWRule` (zero for variants whose
producers leave it at the zero value). -/
def DWRule.offsetField : DWRule → Int
  | .offset off => off
  | .valOffset off => off
  | .cfaRule _ off => off
  | _ => 0

/-- Model of `frame.FrameContext`: CFA rule, register-rule table (a list
of `(regnum, rule)` pairs with distinct keys, standing for the Go map) and
the return-address register number. -/
structure FrameContext where
  cfa : DWRule
  regs : List (Nat × DWRule)
  retAddrReg : Nat

/-- One entry of `reader.InlineStack`: the DWARF attributes
`AttrName`, `AttrCallFile`, `AttrCallLine` (absent attributes are `none`)
and the entry offset. -/
structure InlineEntry where
  name : Option String
  callFileIdx : Option Int
  callLine : Option Int
  offset : Nat
  deriving DecidableEq, Repr

/-- Model of `StacktraceOptions` (the three bits of the source's
bitmask). -/
structure StacktraceOptions where
  readDefers : Bool
  simple : Bool
  useG : Bool
  deriving DecidableEq, Repr

/-- Model of `proc.stackIterator`. The `target`, `bi` and `mem` fields
live in `World`; `g0_sched_sp` bookkeeping belongs to the stack-switch
paths that `World.switchStack` abstracts. -/
structure StackIterator where
  pc : Nat
  top : Bool
  atend : Bool
  sigret : Bool
  frame : Stackframe
  err : Option StackErr
  stackhi : Nat
  systemstack : Bool
  regs : DwarfRegisters
  g : Option G
  count : Nat
  opts : StacktraceOptions

/-- The external collaborators of the unwinder (target memory, DWARF
lookup, symbol table, architecture adapter, runtime readers), modelled as
oracles. -/
structure World where
  /-- `mem.ReadMemory` at word granularity: address and byte count to the
  little-endian value, `none` on read failure. -/
  readWord : Nat → Nat → Option Nat
  /-- `Arch.regSize`. -/
  regSize : Nat → Nat
  /-- `Arch.usesLR`. -/
  usesLR : Bool
  /-- `Arch.PtrSize()`. -/
  ptrSize : Nat
  /-- `op.ExecuteStackProgram`; `none` on error. -/
  execStackProgram : DwarfRegisters → List Nat → Option Int
  /-- `FDEForPC` + `EstablishFrame` + `Arch.fixFrameUnwindContext`
  combined: both the FDE and the no-FDE fallback yield a context. -/
  frameCtxForPC : Nat → FrameContext
  /-- `bi.PCToImage(pc).StaticBase`. -/
  staticBaseAt : Nat → Nat
  /-- `bi.PCToLine`. -/
  pcToLine : Nat → String × Int × Option Function
  /-- `stackIterator.frameBase` (DWARF frame-base evaluation; zero when
  the image is stripped or the tree is unavailable). -/
  frameBaseAt : Function → Nat → Int
  /-- `fn.cu.image.Stripped()`. -/
  stripped : Function → Bool
  /-- `readLocalPtrVar(dwarfTree, goClosurePtr, ...)`; zero stands for
  "absent", matching the source's use of the zero value. -/
  closurePtrAt : Function → DwarfRegisters → Nat
  /-- `fn.cu.lineInfo.PCToLine(fn.Entry, pc)`. -/
  lineForCall : Function → Nat → String × Int
  /-- `it.readSigtrampgoContext`; `none` on error (the hop is skipped). -/
  readSigtrampgoCtx : StackIterator → Option DwarfRegisters
  /-- whether `it.target != nil`. -/
  hasTarget : Bool
  /-- `Arch.switchStack`: returns the taken flag together with the
  (possibly mutated) iterator and caller register set. -/
  switchStack : StackIterator → DwarfRegisters → Bool × StackIterator × DwarfRegisters
  /-- `fn.cu.lineInfo != nil`. -/
  hasLineInfo : Function → Bool
  /-- `fn.cu.image.getDwarfTree` succeeding. -/
  dwarfTreeOk : Function → Bool
  /-- `reader.InlineStack(dwarfTree, callpc)`. -/
  inlineStack : Function → Nat → List InlineEntry
  /-- `fn.cu.filePath`; `none` on error. -/
  filePath : Function → Int → Option String
  /-- `fn.cu.optimized & optimizedOptimized != 0`. -/
  optimizedFn : Function → Bool
  /-- `fn.extra(bi).rangeParent`. -/
  rangeParentOf : Function → Option Function
  /-- the heap-allocated branch of `closurePtrOk`: scanning the frame's
  in-scope range-body closures for a funcval equal to the closure
  pointer. -/
  heapClosureScan : Stackframe → Int → Bool
  /-- initial register set for a goroutine trace
  (`goroutineStackIterator`: thread registers or
  `addrAndStackRegsToDwarfRegisters`). -/
  gRegs : G → DwarfRegisters

/-- Model of `stackIterator.readRegisterAt`: read `regSize regnum` bytes
at `addr`. -/
def readRegisterAt (w : World) (regnum addr : Nat) :
    Option DwarfRegister × Option StackErr :=
  match w.readWord addr (w.regSize regnum) with
  | none => (none, some .memRead)
  | some v => (some (DwarfRegisterFromUint64 v), none)

/-- Model of `stackIterator.executeFrameRegRule`. The register pair
mirrors the Go `(reg, err)` return. -/
def executeFrameRegRule (w : World) (it : StackIterator) (regnum : Nat)
    (rule : DWRule) (cfa : Int) : Option DwarfRegister × Option StackErr :=
  match rule with
  | .undefined => (none, none)
  | .sameVal =>
    match it.regs.reg regnum with
    | none => (none, none)
    | some r => (some r, none)
  | .offset off => readRegisterAt w regnum (toUint64 (cfa + off))
  | .valOffset off => (some (DwarfRegisterFromUint64 (toUint64 (cfa + off))), none)
  | .register r => (it.regs.reg r, none)
  | .expression expr =>
    match w.execStackProgram it.regs expr with
    | none => (none, some .exprFailed)
    | some v => readRegisterAt w regnum (toUint64 v)
  | .valExpression expr =>
    match w.execStackProgram it.regs expr with
    | none => (none, some .exprFailed)
    | some v => (some (DwarfRegisterFromUint64 (toUint64 v)), none)
  | .architectural => (none, some .architectural)
  | .cfaRule r off =>
    match it.regs.reg r with
    | none => (none, none)
    | some _ => (some (DwarfRegisterFromUint64 (toUint64 (toInt64 (it.regs.uint64Val r) + off))), none)
  | .framePointer r =>
    match it.regs.reg r with
    | none => (none, none)
    | some curReg =>
      if curReg.uint64Val ≤ toUint64 cfa then
        readRegisterAt w regnum curReg.uint64Val
      else
        (some curReg, none)

/-- Whether the previously delivered frame's function is
`runtime.sigpanic` (the condition guarding the link-register override in
`advanceRegs`). -/
def sigpanicPrevFrame (it : StackIterator) : Bool :=
  match it.frame.call.fn with
  | some fn => fn.name = "runtime.sigpanic"
  | none => false

/-- The register-rule loop of `stackIterator.advanceRegs`: iterate the
rule table, store each result in the caller register set, and handle the
return-address register (recording `ret` and `retaddr`, applying the
`runtime.sigpanic` link-register override, and reporting an undefined
return address). `it` carries the CFA already stored in `it.regs.cfa`.
The error accumulator models `it.err` (assignments overwrite). -/
def advanceRegsLoop (w : World) (it : StackIterator) (raReg : Nat) :
    List (Nat × DWRule) → DwarfRegisters → Nat → Nat → Option StackErr →
    DwarfRegisters × Nat × Nat × Option StackErr
  | [], cfr, ret, retaddr, e => (cfr, ret, retaddr, e)
  | (i, regRule) :: rest, cfr, ret, retaddr, e =>
    let res := executeFrameRegRule w it i regRule it.regs.cfa
    let cfr := cfr.addReg i res.1
    if i = raReg then
      match res.1 with
      | none =>
        let e' := some ((res.2).getD (.undefinedReturnAddr it.pc))
        advanceRegsLoop w it raReg rest cfr ret (toUint64 (it.regs.cfa + regRule.offsetField)) e'
      | some r =>
        let ret' := r.uint64Val
        let retE : Nat × Option StackErr :=
          if sigpanicPrevFrame it ∧ w.usesLR then
            match w.readWord (toUint64 it.regs.cfa) 8 with
            | some v => (v, e)
            | none => (0, some .memRead)
          else (ret', e)
        advanceRegsLoop w it raReg rest cfr retE.1
          (toUint64 (it.regs.cfa + regRule.offsetField)) retE.2
    else
      advanceRegsLoop w it raReg rest cfr ret retaddr e

/-- Model of `stackIterator.advanceRegs`: fetch the (already fixed) frame
context, evaluate the CFA rule, build the caller register set with SP
implicitly set to the CFA, run the register-rule loop, and apply the
leaf-function link-register fallback. -/
def advanceRegs (w : World) (it : StackIterator) :
    StackIterator × DwarfRegisters × Nat × Nat :=
  let framectx := w.frameCtxForPC it.pc
  let cfaRes := executeFrameRegRule w it 0 framectx.cfa 0
  match cfaRes.1 with
  | none => ({ it with err := some (.cfaUndefined it.pc) }, emptyDwarfRegisters, 0, 0)
  | some cfareg =>
    let it := { it with regs := { it.regs with cfa := toInt64 cfareg.uint64Val } }
    let cfr0 : DwarfRegisters :=
      { staticBase := w.staticBaseAt it.pc, regs := fun _ => none,
        pcRegNum := it.regs.pcRegNum, spRegNum := it.regs.spRegNum,
        bpRegNum := it.regs.bpRegNum, lrRegNum := it.regs.lrRegNum,
        cfa := 0, frameBase := 0 }
    let cfr0 := cfr0.addReg cfr0.spRegNum (some cfareg)
    let loopOut := advanceRegsLoop w it framectx.retAddrReg framectx.regs cfr0 0 0 it.err
    let ret :=
      if w.usesLR ∧ loopOut.2.1 = 0 ∧ (it.regs.reg it.regs.lrRegNum).isSome then
        it.regs.uint64Val it.regs.lrRegNum
      else loopOut.2.1
    ({ it with err := loopOut.2.2.2 }, loopOut.1, ret, loopOut.2.2.1)

/-- Model of `stackIterator.newStackframe` (returns the updated iterator,
since the source mutates `it.err` and `it.regs.FrameBase`). -/
def newStackframe (w : World) (it : StackIterator) (ret retaddr : Nat) :
    StackIterator × Stackframe :=
  if retaddr = 0 then
    ({ it with err := some .nullAddr }, emptyStackframe)
  else
    let fl := w.pcToLine it.pc
    let fn? := fl.2.2
    let f := match fn? with | none => "?" | some _ => fl.1
    let l : Int := match fn? with | none => -1 | some _ => fl.2.1
    let it := match fn? with
      | none => it
      | some fn => { it with regs := { it.regs with frameBase := w.frameBaseAt fn it.pc } }
    let r : Stackframe :=
      { current := ⟨it.pc, f, l, fn?⟩, call := ⟨it.pc, f, l, fn?⟩,
        regs := it.regs, stackHi := it.stackhi, ret := ret, err := none,
        systemStack := it.systemstack, inlined := false, hasInlines := false,
        bottom := false, lastpc := it.pc, closurePtr := 0,
        topmostDefer := none, defers := [] }
    let r := if (r.regs.reg it.regs.pcRegNum).isNone then
        { r with regs := r.regs.addReg it.regs.pcRegNum (some (DwarfRegisterFromUint64 it.pc)) }
      else r
    let r := match fn? with
      | some fn =>
        if ¬ it.top ∧ it.pc ≠ fn.entry ∧ ¬ it.sigret ∧
            fn.name ≠ "runtime.mstart" ∧ fn.name ≠ "runtime.systemstack_switch" then
          let cl := w.lineForCall fn (it.pc - 1)
          { r with lastpc := it.pc - 1,
                   call := { r.call with file := cl.1, line := cl.2 } }
        else r
      | none => r
    let r := match fn?, it.g with
      | some fn, some g =>
        if ¬ w.stripped fn ∧ ¬ r.systemStack then
          let c := w.closurePtrAt fn r.regs
          if c ≠ 0 then
            if g.stackLo ≤ c ∧ c < g.stackHi then
              { r with closurePtr := (c : Int) - (g.stackHi : Int) }
            else
              { r with closurePtr := (c : Int) }
          else r
        else r
      | _, _ => r
    (it, r)

/-- Model of `stackIterator.switchToGoroutineStack`. -/
def switchToGoroutineStack (w : World) (it : StackIterator) :
    Except StackErr StackIterator :=
  match it.g with
  | none => .error .nilGoroutine
  | some g =>
    let it := { it with systemstack := false, top := false, pc := g.pc }
    let regs := it.regs.setRegVal it.regs.spRegNum g.sp
    let regs := regs.addReg it.regs.bpRegNum (some (DwarfRegisterFromUint64 g.bp))
    if w.usesLR then
      if (regs.reg it.regs.lrRegNum).isNone then .error .lrNilDuringSwitch
      else .ok { it with regs := regs.setRegVal it.regs.lrRegNum g.lr }
    else .ok { it with regs := regs }

/-- The `runtime.sigtrampgo` hop attempted at the start of the tail of
`Next`: `some` when the current frame is the signal trampoline, a target
is available and the context read succeeds. -/
def sigtrampHop (w : World) (it : StackIterator) : Option DwarfRegisters :=
  match it.frame.current.fn with
  | some fn =>
    if fn.name = "runtime.sigtrampgo" ∧ w.hasTarget then w.readSigtrampgoCtx it
    else none
  | none => none

/-- Model of `stackIterator.Next`. -/
def StackIterator.Next (w : World) (it : StackIterator) : Bool × StackIterator :=
  if it.err.isSome ∨ it.atend then (false, it)
  else
    let adv := advanceRegs w it
    let ns := newStackframe w adv.1 adv.2.2.1 adv.2.2.2
    let it := { ns.1 with frame := ns.2 }
    match sigtrampHop w it with
    | some regs0 =>
      let regs1 := { regs0 with staticBase := w.staticBaseAt regs0.PC }
      let it := { it with pc := regs1.PC, regs := regs1, top := false }
      let it := match it.g with
        | some g =>
          if g.id ≠ 0 then
            { it with systemstack := ¬ (regs1.SP ≥ g.stackLo ∧ regs1.SP < g.stackHi) }
          else it
        | none => it
      (true, it)
    | none =>
      let sw :=
        if ¬ it.opts.simple then w.switchStack it adv.2.1
        else (false, it, adv.2.1)
      if sw.1 then (true, sw.2.1)
      else
        let it := sw.2.1
        if it.frame.ret = 0 then (true, { it with atend := true })
        else
          (true, { it with
            sigret := (match it.frame.current.fn with
                       | some fn => fn.name = "runtime.sigpanic"
                       | none => false),
            top := false, pc := it.frame.ret, regs := sw.2.2 })

/-- Model of `stackIterator.Frame`. -/
def StackIterator.Frame (it : StackIterator) : Stackframe :=
  { it.frame with bottom := it.atend }

/-- The synthetic stack frame emitted by `appendInlineCalls` for one
inline entry: it copies the physical frame's fields, sets `Inlined`, and
carries a stub `Function` with the inline subprogram's name and offset but
the enclosing function's entry and end. -/
def synthInlineFrame (callFn : Function) (off : Nat) (fnname : String)
    (fr : Stackframe) : Stackframe :=
  { current := fr.current,
    call := ⟨fr.call.pc, fr.call.file, fr.call.line,
      some { name := fnname, entry := callFn.entry, fnEnd := callFn.fnEnd,
             offset := off }⟩,
    regs := fr.regs, stackHi := fr.stackHi, ret := fr.ret, err := fr.err,
    systemStack := fr.systemStack, inlined := true, hasInlines := false,
    bottom := false, lastpc := fr.lastpc, closurePtr := fr.closurePtr,
    topmostDefer := none, defers := [] }

/-- The loop of `appendInlineCalls` over the `reader.InlineStack`
entries: mark the physical frame as having inlines, stop at the first
entry with a missing attribute or file-path error, and otherwise emit a
synthetic inlined frame through the callback (whose continue flag is
ignored inside the loop, as in the source). Returns the updated iterator,
callback state and the (mutated) physical frame. -/
def appendInlineLoop {σ : Type} (w : World) (cb : σ → Stackframe → σ × Bool)
    (callFn : Function) :
    List InlineEntry → StackIterator → σ → Stackframe → StackIterator × σ × Stackframe
  | [], it, s, fr => (it, s, fr)
  | entry :: rest, it, s, fr =>
    let fr := { fr with hasInlines := true }
    match entry.name, entry.callFileIdx, entry.callLine with
    | some fnname, some fileidx, some line =>
      let fp := match fr.current.fn with
        | some cfn => w.filePath cfn fileidx
        | none => none
      match fp with
      | none => (it, s, fr)
      | some filepath =>
        let it := { it with count := it.count + 1 }
        let syn := synthInlineFrame callFn entry.offset fnname fr
        let s := (cb s syn).1
        let fr := { fr with call := { fr.call with file := filepath, line := line } }
        appendInlineLoop w cb callFn rest it s fr
    | _, _, _ => (it, s, fr)

/-- Model of `stackIterator.appendInlineCalls`: deliver the synthetic
inline frames for the physical frame and then the physical frame itself;
the returned flag is the callback's verdict on the physical frame. -/
def appendInlineCalls {σ : Type} (w : World) (cb : σ → Stackframe → σ × Bool)
    (it : StackIterator) (s : σ) (frame : Stackframe) :
    StackIterator × σ × Bool :=
  match frame.call.fn with
  | none =>
    let it := { it with count := it.count + 1 }
    let r := cb s frame
    (it, r.1, r.2)
  | some fn =>
    if ¬ w.hasLineInfo fn then
      let it := { it with count := it.count + 1 }
      let r := cb s frame
      (it, r.1, r.2)
    else
      let callpc := frame.call.pc - (if it.count > 0 then 1 else 0)
      if ¬ w.dwarfTreeOk fn then
        let it := { it with count := it.count + 1 }
        let r := cb s frame
        (it, r.1, r.2)
      else
        let lo := appendInlineLoop w cb fn (w.inlineStack fn callpc) it s frame
        let it := { lo.1 with count := lo.1.count + 1 }
        let r := cb lo.2.1 lo.2.2
        (it, r.1, r.2)

/-- The `for it.Next()` loop of `stacktraceFunc`, with fuel bounding the
number of iterations (the source relies on the trace being finite). -/
def stacktraceLoop {σ : Type} (w : World) (cb : σ → Stackframe → σ × Bool) :
    Nat → StackIterator → σ → StackIterator × σ
  | 0, it, s => (it, s)
  | fuel + 1, it, s =>
    let nx := it.Next w
    if nx.1 then
      let ap := appendInlineCalls w cb nx.2 s nx.2.Frame
      if ap.2.2 then stacktraceLoop w cb fuel ap.1 ap.2.1
      else (ap.1, ap.2.1)
    else (nx.2, s)

/-- Model of `stackIterator.stacktraceFunc`. -/
def stacktraceFunc {σ : Type} (fuel : Nat) (w : World)
    (cb : σ → Stackframe → σ × Bool) (it : StackIterator) (s : σ) :
    StackIterator × σ :=
  if it.opts.useG ∧ it.g.isSome then
    match switchToGoroutineStack w it with
    | .error e => ({ it with err := some e }, s)
    | .ok it' => stacktraceLoop w cb fuel { it' with top := true } s
  else stacktraceLoop w cb fuel it s

/-- The frame-collecting callback built by `stacktrace` for a maximum
depth: append the frame and continue while fewer than `depth + 1` frames
have been collected. -/
def depthCB (depth : Int) : List Stackframe → Stackframe → List Stackframe × Bool :=
  fun frames fr => (frames ++ [fr], decide (((frames.length : Int) + 1) < depth + 1))

/-- The error-reporting tail of `stacktrace`: a pending iterator error
with no frames is returned as the error; with frames it is appended as a
terminal frame carrying only `err`. -/
def stacktraceFinalize (it : StackIterator) (frames : List Stackframe) :
    Except StackErr (List Stackframe) :=
  match it.err with
  | none => .ok frames
  | some e =>
    if frames.isEmpty then .error e
    else .ok (frames ++ [{ emptyStackframe with err := some e }])

/-- Model of `stackIterator.stacktrace`: run the iteration, retry once
from the goroutine's saved scheduler registers when the first frame failed
on a system stack (the WER recovery), and finalize. -/
def stacktrace (fuel : Nat) (w : World) (it : StackIterator) (depth : Int) :
    Except StackErr (List Stackframe) :=
  if depth < 0 then .error .negativeDepth
  else
    let run1 := stacktraceFunc fuel w (depthCB depth) it []
    let run2 :=
      if run1.1.err.isSome ∧ run1.2.length = 1 ∧ run1.1.g.isSome ∧
          (run1.2.headD emptyStackframe).systemStack ∧ ¬ run1.1.opts.simple then
        stacktraceFunc fuel w (depthCB depth)
          { run1.1 with err := none, opts := { run1.1.opts with useG := true } } run1.2
      else run1
    stacktraceFinalize run2.1 run2.2

/-- Model of `newStackIterator`. -/
def newStackIterator (regs : DwarfRegisters) (stackhi : Nat) (g? : Option G)
    (opts : StacktraceOptions) : StackIterator :=
  { pc := regs.PC, top := true, atend := false, sigret := false,
    frame := emptyStackframe, err := none, stackhi := stackhi,
    systemstack := (match g? with | some g => g.systemStack | none => true),
    regs := regs, g := g?, count := 0, opts := opts }

/-- Model of `goroutineStackIterator` (the register acquisition from the
thread or the saved `g` fields is the `gRegs` oracle). -/
def goroutineStackIterator (w : World) (g : G) (opts : StacktraceOptions) :
    StackIterator :=
  newStackIterator (w.gRegs g) g.stackHi (some g) opts

/-- Append a single defer to a frame's `Defers` list. -/
def Stackframe.addDefer (f : Stackframe) (d : Defer) : Stackframe :=
  { f with defers := f.defers ++ [d] }

/-- Append several defers to a frame's `Defers` list. -/
def Stackframe.addDefers (f : Stackframe) (ds : List Defer) : Stackframe :=
  { f with defers := f.defers ++ ds }

/-- The payload attached by `readDefers` to a frame for a readable defer:
the nested rangefunc defers when present, otherwise the defer itself. -/
def deferPayload (d : Defer) : List Defer :=
  match d.rangefunc with
  | [] => [d]
  | rf => rf

/-- The `frames[i].TopmostDefer` assignment of `readDefers`: set it to
`d.topdefer()` when not yet set. -/
def rdTopmost (frames : List Stackframe) (i : Nat) (d : Defer) : List Stackframe :=
  if (frames.getD i emptyStackframe).topmostDefer.isNone then
    frames.set i { frames.getD i emptyStackframe with topmostDefer := some d.topdefer }
  else frames

/-- The attach action of `readDefers`: record the topmost defer, then
append the payload of `d` to `frames[i].Defers`. -/
def rdAttach (frames : List Stackframe) (i : Nat) (d : Defer) : List Stackframe :=
  (rdTopmost frames i d).set i
    (((rdTopmost frames i d).getD i emptyStackframe).addDefers (deferPayload d))

/-- The main loop of `(*G).readDefers`: scan frames (index `i`) and the
defer chain (`cur` is the loaded current node, `rest` the not-yet-loaded
remainder) simultaneously, attaching each defer to the frame that created
it. Fuel bounds the iteration count; `readDefers` supplies enough. -/
def readDefersGo : Nat → List Stackframe → Nat → Option Defer → List Defer →
    List Stackframe
  | 0, frames, _, _, _ => frames
  | fuel + 1, frames, i, cur, rest =>
    match cur with
    | none => frames
    | some d =>
      if i < frames.length then
        if d.unreadable.isSome then
          frames.set i ((frames.getD i emptyStackframe).addDefer d)
        else if (frames.getD i emptyStackframe).err.isSome then frames
        else
          if (frames.getD i emptyStackframe).systemStack ∨
              (frames.getD i emptyStackframe).inlined ∨
              d.sp ≥ toUint64 (frames.getD i emptyStackframe).regs.cfa then
            readDefersGo fuel (rdTopmost frames i d) (i + 1) (some d) rest
          else
            readDefersGo fuel (rdAttach frames i d) i (d.Next rest).1 (d.Next rest).2
      else frames

/-- Model of `(*G).readDefers`: the goroutine's defer chain is given as a
list whose head corresponds to `g.Defer()` (already loaded). -/
def readDefers (frames : List Stackframe) (chain : List Defer) : List Stackframe :=
  match chain with
  | [] => frames
  | d :: rest => readDefersGo (frames.length + rest.length + 2) frames 0 (some d) rest

/-- State threaded through `rangeFuncStackTrace`'s iteration callback. -/
structure RFState where
  frames : List Stackframe
  stage : Nat
  addRetFrame : Bool
  rangeParent : Option Function
  nonMonotonicSP : Bool
  closurePtr : Int

/-- The `appendFrame` closure of `rangeFuncStackTrace`. -/
def rfAppendFrame (st : RFState) (fr : Stackframe) : RFState :=
  { st with frames := st.frames ++ [fr],
            closurePtr := if fr.closurePtr ≠ 0 then fr.closurePtr else st.closurePtr,
            addRetFrame := true }

/-- The `closurePtrOk` closure of `rangeFuncStackTrace`. -/
def rfClosurePtrOk (w : World) (st : RFState) (fr : Stackframe) : Bool :=
  if fr.systemStack then false
  else
    let opt := match fr.call.fn with
      | some fn => w.optimizedFn fn
      | none => false
    let lastInlined := match st.frames.getLast? with
      | some p => p.inlined
      | none => false
    if (decide (st.closurePtr = 0) && opt) || lastInlined then true
    else if st.closurePtr < 0 then fr.contains st.closurePtr
    else w.heapClosureScan fr st.closurePtr

/-- The values of the stage constants in `rangeFuncStackTrace`. -/
def startStage : Nat := 0

/-- Stage constant `normalStage`. -/
def normalStage : Nat := 1

/-- Stage constant `lastFrameStage`. -/
def lastFrameStage : Nat := 2

/-- Stage constant `doneStage`. -/
def doneStage : Nat := 3

/-- The iteration callback of `rangeFuncStackTrace` (the function literal
passed to `it.stacktraceFunc`). -/
def rfCallback (w : World) : RFState → Stackframe → RFState × Bool :=
  fun st fr =>
    let spDecreased : Bool := match st.frames.getLast? with
      | some prev => decide (fr.regs.SP < prev.regs.SP)
      | none => false
    if spDecreased then ({ st with nonMonotonicSP := true }, false)
    else
      let st := if st.addRetFrame then
          { st with addRetFrame := false, frames := st.frames ++ [fr] }
        else st
      match fr.call.fn with
      | none =>
        if st.stage = startStage then
          ({ st with frames := [], addRetFrame := false, stage := doneStage }, false)
        else (st, true)
      | some fn =>
        if st.stage = startStage then
          let st := rfAppendFrame st fr
          let rp := w.rangeParentOf fn
          let st := { st with rangeParent := rp, stage := normalStage }
          let stop := rp.isNone ∨ (¬ w.optimizedFn fn ∧ ¬ fr.inlined ∧ st.closurePtr = 0)
          if stop then
            ({ st with frames := [], addRetFrame := false, stage := doneStage }, false)
          else (st, true)
        else if st.stage = normalStage then
          let atParent : Bool := match st.rangeParent with
            | some rp => decide (fn.offset = rp.offset)
            | none => false
          if atParent && rfClosurePtrOk w st fr then
            ({ st with frames := st.frames ++ [fr], stage := lastFrameStage }, true)
          else if w.rangeParentOf fn = st.rangeParent ∧ rfClosurePtrOk w st fr then
            let st := rfAppendFrame st fr
            if ¬ w.optimizedFn fn ∧ st.closurePtr = 0 then
              ({ st with frames := [], addRetFrame := false, stage := doneStage }, false)
            else (st, true)
          else
            let lastInlined := match st.frames.getLast? with
              | some p => p.inlined
              | none => false
            if lastInlined && !fr.inlined && decide (st.closurePtr = 0) then
              ({ st with frames := [], addRetFrame := false, stage := doneStage }, false)
            else (st, true)
        else if st.stage = lastFrameStage then
          ({ st with frames := st.frames ++ [fr], stage := doneStage }, false)
        else (st, false)

/-- The errors produced by `rangeFuncStackTrace`. -/
inductive RFError where
  | iterErr (e : StackErr)
  | nonMonotonic
  | noParent
  | incomplete
  deriving DecidableEq, Repr

/-- The error message for each `RFError` in the source. -/
def RFError.msg : RFError → String
  | .iterErr _ => "stack iteration error"
  | .nonMonotonic => "corrupted stack (SP not monotonically decreasing)"
  | .noParent => "could not find range-over-func closure parent on the stack"
  | .incomplete => "incomplete range-over-func stacktrace"

/-- The initial `RFState`. -/
def rfInit : RFState :=
  { frames := [], stage := startStage, addRetFrame := false,
    rangeParent := none, nonMonotonicSP := false, closurePtr := 0 }

/-- The iteration phase of `rangeFuncStackTrace` for a goroutine. -/
def rfRun (fuel : Nat) (w : World) (g : G) : StackIterator × RFState :=
  stacktraceFunc fuel w (rfCallback w)
    (goroutineStackIterator w g { readDefers := false, simple := true, useG := false })
    rfInit

/-- The checking-and-decorating tail of `rangeFuncStackTrace`. -/
def rfFinalize (itErr : Option StackErr) (st : RFState) (chain : List Defer) :
    Except RFError (List Stackframe) :=
  match itErr with
  | some e => .error (.iterErr e)
  | none =>
    if st.nonMonotonicSP then .error .nonMonotonic
    else if st.stage ≠ doneStage then .error .noParent
    else if st.frames.length % 2 ≠ 0 then .error .incomplete
    else .ok (readDefers st.frames chain)

/-- Model of `rangeFuncStackTrace` (a nil goroutine returns the nil
slice, modelled as `.ok []`; the goroutine's defer chain is passed
explicitly for the final `readDefers` decoration). -/
def rangeFuncStackTrace (fuel : Nat) (w : World) (g? : Option G)
    (chain : List Defer) : Except RFError (List Stackframe) :=
  match g? with
  | none => .ok []
  | some g =>
    let run := rfRun fuel w g
    rfFinalize run.1.err run.2 chain

/-! ## Concrete worlds and states used by witnesses and counterexamples -/

/-- A baseline `World` with inert oracles; witnesses override the fields
they exercise. -/
def trivWorld : World :=
  { readWord := fun _ _ => none, regSize := fun _ => 8, usesLR := false,
    ptrSize := 8, execStackProgram := fun _ _ => none,
    frameCtxForPC := fun _ => ⟨.undefined, [], 0⟩, staticBaseAt := fun _ => 0,
    pcToLine := fun _ => ("", 0, none), frameBaseAt := fun _ _ => 0,
    stripped := fun _ => false, closurePtrAt := fun _ _ => 0,
    lineForCall := fun _ _ => ("", 0), readSigtrampgoCtx := fun _ => none,
    hasTarget := false, switchStack := fun it cfr => (false, it, cfr),
    hasLineInfo := fun _ => false, dwarfTreeOk := fun _ => false,
    inlineStack := fun _ _ => [], filePath := fun _ _ => none,
    optimizedFn := fun _ => false, rangeParentOf := fun _ => none,
    heapClosureScan := fun _ _ => false, gRegs := fun _ => emptyDwarfRegisters }

/-- A register file holding a single register: number 3 with value 50. -/
def c2Regs : DwarfRegisters :=
  { emptyDwarfRegisters with regs := fun n => if n = 3 then some ⟨50⟩ else none }

/-- An iterator state over `c2Regs`. -/
def c2It : StackIterator :=
  { pc := 0, top := true, atend := false, sigret := false,
    frame := emptyStackframe, err := none, stackhi := 0, systemstack := false,
    regs := c2Regs, g := none, count := 0,
    opts := ⟨false, false, false⟩ }

/-- A world whose memory holds the 8-byte word 77 at address 50. -/
def c2World : World :=
  { trivWorld with readWord := fun addr _ => if addr = 50 then some 77 else none }

/-! ## C2: the FramePointer register rule -/

/-- C2: for every register number, CFA value and register set in which
register `r` is present, a `FramePointer(r)` rule reads a register-sized
word from memory at address `regs[r]` when `regs[r] ≤ cfa` (the result is
exactly `readRegisterAt`, which reads `regSize regnum` bytes at that
address), and returns the register value unchanged when `regs[r] > cfa`. -/
theorem c2_framePointer_rule (w : World) (it : StackIterator) (regnum r : Nat)
    (cfa : Int) (curReg : DwarfRegister) (hreg : it.regs.reg r = some curReg) :
    (curReg.uint64Val ≤ toUint64 cfa →
      executeFrameRegRule w it regnum (.framePointer r) cfa =
        match w.readWord curReg.uint64Val (w.regSize regnum) with
        | none => (none, some .memRead)
        | some v => (some (DwarfRegisterFromUint64 v), none)) ∧
    (¬ curReg.uint64Val ≤ toUint64 cfa →
      executeFrameRegRule w it regnum (.framePointer r) cfa = (some curReg, none)) := by
  constructor <;> intro h <;> simp [executeFrameRegRule, readRegisterAt, hreg, h]

/-- Witness for C2: with register 3 holding 50 and the word 77 stored at
address 50, the rule reads memory when the CFA is 100 and returns the
register untouched when the CFA is 10. -/
theorem c2_framePointer_rule_witness :
    executeFrameRegRule c2World c2It 5 (.framePointer 3) 100 =
      (some (DwarfRegisterFromUint64 77), none) ∧
    executeFrameRegRule c2World c2It 5 (.framePointer 3) 10 = (some ⟨50⟩, none) := by
  constructor
  · have h := (c2_framePointer_rule c2World c2It 5 3 100 ⟨50⟩ rfl).1 (by decide)
    rw [h]; rfl
  · exact (c2_framePointer_rule c2World c2It 5 3 10 ⟨50⟩ rfl).2 (by decide)

/-! ## C7: the rangefunc loading cap -/

/-- The loading loop keeps the accumulated list within one entry past the
cap: the length check runs only after appending. -/
theorem loadRangefuncGo_length_le (l : List Defer) :
    ∀ acc : List Defer, acc.length ≤ maxRangeFuncDefers →
      (Defer.loadRangefuncGo acc l).length ≤ maxRangeFuncDefers + 1 := by
  induction l with
  | nil =>
    intro acc hacc
    simpa [Defer.loadRangefuncGo] using Nat.le_succ_of_le hacc
  | cons hd rest ih =>
    intro acc hacc
    simp only [Defer.loadRangefuncGo]
    match rest, ih with
    | [], _ => simpa using Nat.succ_le_succ hacc
    | r :: rs, ih =>
      simp only []
      by_cases hlen : (acc ++ [hd]).length > maxRangeFuncDefers
      · simp only [hlen, if_pos]
        simpa using Nat.succ_le_succ hacc
      · simp only [hlen, if_neg, not_false_iff]
        exact ih (acc ++ [hd]) (by simpa using Nat.le_of_not_lt hlen)

/-- C7 (amended): the nested rangefunc list is capped at
`maxRangeFuncDefers + 1 = 11` entries, because the loop checks the length
only after appending; it is not capped at 10. -/
theorem c7_rangefunc_cap (chain : List Defer) :
    (Defer.loadRangefunc chain).length ≤ maxRangeFuncDefers + 1 := by
  unfold Defer.loadRangefunc
  exact loadRangefuncGo_length_le chain [] (by simp [maxRangeFuncDefers])

/-- Counterexample for C7 as stated: loading a nested chain of 12 defers
produces a rangefunc list of 11 entries, exceeding the claimed cap of 10. -/
theorem c7_cap_counterexample :
    ¬ ((Defer.loadRangefunc (List.replicate 12 ⟨0, [], none⟩)).length ≤
        maxRangeFuncDefers) := by
  decide

/-! ## C1: the sigpanic link-register override in advanceRegs -/

/-- The register-rule loop distributes over list append. -/
theorem advanceRegsLoop_append (w : World) (it : StackIterator) (raReg : Nat)
    (l1 l2 : List (Nat × DWRule)) :
    ∀ cfr ret retaddr e,
      advanceRegsLoop w it raReg (l1 ++ l2) cfr ret retaddr e =
        (let o := advanceRegsLoop w it raReg l1 cfr ret retaddr e
         advanceRegsLoop w it raReg l2 o.1 o.2.1 o.2.2.1 o.2.2.2) := by
  induction l1 with
  | nil => intro cfr ret retaddr e; rfl
  | cons hd tl ih =>
    intro cfr ret retaddr e
    obtain ⟨i, regRule⟩ := hd
    simp only [List.cons_append, advanceRegsLoop]
    by_cases hi : i = raReg
    · simp only [hi, if_pos rfl]
      cases hres : (executeFrameRegRule w it raReg regRule it.regs.cfa).1 with
      | none => exact ih _ _ _ _
      | some r => exact ih _ _ _ _
    · simp only [if_neg hi]
      exact ih _ _ _ _

/-- Entries whose register number is not the return-address register do
not touch `ret`, `retaddr` or the error accumulator. -/
theorem advanceRegsLoop_no_ra (w : World) (it : StackIterator) (raReg : Nat)
    (l : List (Nat × DWRule)) (hl : raReg ∉ l.map Prod.fst) :
    ∀ cfr ret retaddr e,
      (advanceRegsLoop w it raReg l cfr ret retaddr e).2 = (ret, retaddr, e) := by
  induction l with
  | nil => intro cfr ret retaddr e; rfl
  | cons hd tl ih =>
    intro cfr ret retaddr e
    obtain ⟨i, regRule⟩ := hd
    simp only [List.map_cons, List.mem_cons, not_or] at hl
    have hne : ¬ (i = raReg) := fun h => hl.1 h.symm
    simp only [advanceRegsLoop]
    rw [if_neg hne]
    exact ih hl.2 _ _ _ _

/-- One step of the loop at the return-address entry: when the previous
frame was `runtime.sigpanic`, the architecture uses a link register, the
rule resolves and the memory read at the CFA succeeds, the loop's `ret`
output is the word read at the CFA, regardless of the incoming state. -/
theorem advanceRegsLoop_ra_override (w : World) (it2 : StackIterator)
    (raReg : Nat) (rrule : DWRule) (post : List (Nat × DWRule))
    (r0 : DwarfRegister) (v : Nat)
    (husesLR : w.usesLR = true)
    (hsig : sigpanicPrevFrame it2 = true)
    (hres : (executeFrameRegRule w it2 raReg rrule it2.regs.cfa).1 = some r0)
    (hmem : w.readWord (toUint64 it2.regs.cfa) 8 = some v)
    (hpost : raReg ∉ post.map Prod.fst) :
    ∀ cfr ret retaddr e,
      (advanceRegsLoop w it2 raReg ((raReg, rrule) :: post) cfr ret retaddr e).2.1 = v := by
  intro cfr ret retaddr e
  simp only [advanceRegsLoop, if_pos rfl]
  rw [hres]
  simp only [hsig, husesLR, and_self, if_pos, true_and, hmem]
  have hpostRun := advanceRegsLoop_no_ra w it2 raReg post hpost
  simp only [hpostRun]

/-- C1: on a link-register architecture, when the previously delivered
frame's function is `runtime.sigpanic` and the return-address rule
resolves, `advanceRegs` takes `ret` from the pointer-sized word read from
memory at the current frame's CFA instead of the (stale) link-register
derived rule value. -/
theorem c1_sigpanic_lr_override (w : World) (it : StackIterator)
    (cfareg : DwarfRegister) (pre post : List (Nat × DWRule)) (rrule : DWRule)
    (r0 : DwarfRegister) (v : Nat)
    (husesLR : w.usesLR = true)
    (hsig : sigpanicPrevFrame it = true)
    (hcfa : (executeFrameRegRule w it 0 (w.frameCtxForPC it.pc).cfa 0).1 = some cfareg)
    (hsplit : (w.frameCtxForPC it.pc).regs =
      pre ++ ((w.frameCtxForPC it.pc).retAddrReg, rrule) :: post)
    (_hpre : (w.frameCtxForPC it.pc).retAddrReg ∉ pre.map Prod.fst)
    (hpost : (w.frameCtxForPC it.pc).retAddrReg ∉ post.map Prod.fst)
    (hres : (executeFrameRegRule w
        { it with regs := { it.regs with cfa := toInt64 cfareg.uint64Val } }
        (w.frameCtxForPC it.pc).retAddrReg rrule (toInt64 cfareg.uint64Val)).1 = some r0)
    (hmem : w.readWord (toUint64 (toInt64 cfareg.uint64Val)) 8 = some v)
    (hv : v ≠ 0) :
    (advanceRegs w it).2.2.1 = v := by
  have hover := advanceRegsLoop_ra_override w
    { it with regs := { it.regs with cfa := toInt64 cfareg.uint64Val } }
    (w.frameCtxForPC it.pc).retAddrReg rrule post r0 v husesLR hsig hres hmem hpost
  simp only [advanceRegs]
  rw [hcfa]
  simp only [hsplit, advanceRegsLoop_append]
  simp only [hover]
  simp only [hv, and_false, false_and, if_neg, not_false_iff]

/-- The register file for the C1 witness: SP (31) holds 0x200, the link
register (30) holds the stale value 0xdead. -/
def c1Regs : DwarfRegisters :=
  { staticBase := 0,
    regs := fun n => if n = 31 then some ⟨0x200⟩ else if n = 30 then some ⟨0xdead⟩ else none,
    pcRegNum := 32, spRegNum := 31, bpRegNum := 29, lrRegNum := 30,
    cfa := 0, frameBase := 0 }

/-- The previously delivered frame for the C1 witness: `runtime.sigpanic`. -/
def c1SigpanicFrame : Stackframe :=
  { emptyStackframe with
      current := ⟨0x100, "panic.go", 1, some ⟨"runtime.sigpanic", 0x100, 0x140, 7⟩⟩,
      call := ⟨0x100, "panic.go", 1, some ⟨"runtime.sigpanic", 0x100, 0x140, 7⟩⟩ }

/-- The iterator state for the C1 witness. -/
def c1It : StackIterator :=
  { pc := 0x100, top := false, atend := false, sigret := true,
    frame := c1SigpanicFrame, err := none, stackhi := 0x1000,
    systemstack := false, regs := c1Regs, g := none, count := 1,
    opts := ⟨false, false, false⟩ }

/-- The world for the C1 witness: a link-register architecture whose frame
context at 0x100 computes CFA = SP and resolves the return-address
register 32 with an `Offset(-8)` rule; memory holds 0x7777 at 0x1f8 (the
rule's slot) and 0x4242 at 0x200 (the CFA). -/
def c1World : World :=
  { trivWorld with
      usesLR := true,
      readWord := fun addr _ =>
        if addr = 0x1f8 then some 0x7777
        else if addr = 0x200 then some 0x4242 else none,
      frameCtxForPC := fun _ =>
        { cfa := .cfaRule 31 0, regs := [(32, .offset (-8))], retAddrReg := 32 } }

/-- Witness for C1: in `c1World`, `advanceRegs` returns the word stored at
the CFA (0x4242), not the rule-resolved slot value 0x7777 and not the
stale link register 0xdead. -/
theorem c1_sigpanic_lr_override_witness :
    (advanceRegs c1World c1It).2.2.1 = 0x4242 :=
  c1_sigpanic_lr_override c1World c1It ⟨0x200⟩ [] [] (.offset (-8)) ⟨0x7777⟩ 0x4242
    rfl rfl (by decide) rfl (by decide) (by decide) (by decide) (by decide) (by decide)

/-! ## C5: synthetic inline frames -/

/-- A callback that records every delivered frame and always continues;
instantiating `appendInlineCalls` with it exposes the delivered frame
sequence. -/
def collectCB : List Stackframe → Stackframe → List Stackframe × Bool :=
  fun acc fr => (acc ++ [fr], true)

/-- Invariant of the inline-entry loop: the emitted frames are appended to
the accumulator, each is synthetic (`inlined`) and copies `current`,
`regs`, `ret` and `stackHi` from the physical frame, those four fields of
the physical frame are never modified, `hasInlines` is monotone, and any
emission forces `hasInlines` on the physical frame. -/
theorem appendInlineLoop_spec (w : World) (callFn : Function)
    (entries : List InlineEntry) :
    ∀ (it : StackIterator) (acc : List Stackframe) (fr : Stackframe),
      ∃ em : List Stackframe,
        (appendInlineLoop w collectCB callFn entries it acc fr).2.1 = acc ++ em ∧
        ((appendInlineLoop w collectCB callFn entries it acc fr).2.2.current = fr.current ∧
         (appendInlineLoop w collectCB callFn entries it acc fr).2.2.regs = fr.regs ∧
         (appendInlineLoop w collectCB callFn entries it acc fr).2.2.ret = fr.ret ∧
         (appendInlineLoop w collectCB callFn entries it acc fr).2.2.stackHi = fr.stackHi ∧
         (fr.hasInlines = true →
           (appendInlineLoop w collectCB callFn entries it acc fr).2.2.hasInlines = true) ∧
         (em ≠ [] →
           (appendInlineLoop w collectCB callFn entries it acc fr).2.2.hasInlines = true)) ∧
        ∀ x ∈ em, x.inlined = true ∧ x.current = fr.current ∧ x.regs = fr.regs ∧
          x.ret = fr.ret ∧ x.stackHi = fr.stackHi := by
  induction entries with
  | nil =>
    intro it acc fr
    exact ⟨[], by simp [appendInlineLoop]⟩
  | cons entry rest ih =>
    intro it acc fr
    simp only [appendInlineLoop]
    match hname : entry.name, hfi : entry.callFileIdx, hli : entry.callLine with
    | none, _, _ =>
      exact ⟨[], by simp⟩
    | some fnname, none, _ =>
      exact ⟨[], by simp⟩
    | some fnname, some fileidx, none =>
      exact ⟨[], by simp⟩
    | some fnname, some fileidx, some line =>
      simp only []
      match hfp : (match fr.current.fn with
                   | some cfn => w.filePath cfn fileidx
                   | none => none) with
      | none =>
        exact ⟨[], by simp⟩
      | some filepath =>
        simp only []
        obtain ⟨em', h1, h2, h3⟩ := ih
          { it with count := it.count + 1 }
          ((collectCB acc (synthInlineFrame callFn entry.offset fnname fr)).1)
          { fr with hasInlines := true,
                    call := { fr.call with file := filepath, line := line } }
        refine ⟨synthInlineFrame callFn entry.offset fnname fr :: em', ?_, ?_, ?_⟩
        · exact h1.trans (by simp [collectCB])
        · exact ⟨h2.1, h2.2.1, h2.2.2.1, h2.2.2.2.1, fun _ => h2.2.2.2.2.1 rfl,
            fun _ => h2.2.2.2.2.1 rfl⟩
        · intro x hx
          rcases List.mem_cons.mp hx with hx | hx
          · subst hx; exact ⟨rfl, rfl, rfl, rfl, rfl⟩
          · exact h3 x hx

/-- C5: whenever `appendInlineCalls` emits `N ≥ 1` synthetic inline frames
for a physical frame `F`, the physical frame is delivered last with
`hasInlines = true`, every synthetic frame has `Inlined = true`, and every
synthetic frame carries the same `Current`, `Regs`, `Ret` and `stackHi`
as `F` (which are also preserved on the delivered physical frame). -/
theorem c5_inline_frame_invariants (w : World) (it : StackIterator) (F : Stackframe) :
    ∃ syns : List Stackframe, ∃ phys : Stackframe,
      (appendInlineCalls w collectCB it [] F).2.1 = syns ++ [phys] ∧
      (syns ≠ [] → phys.hasInlines = true) ∧
      phys.current = F.current ∧ phys.regs = F.regs ∧ phys.ret = F.ret ∧
      phys.stackHi = F.stackHi ∧
      ∀ x ∈ syns, x.inlined = true ∧ x.current = F.current ∧ x.regs = F.regs ∧
        x.ret = F.ret ∧ x.stackHi = F.stackHi := by
  simp only [appendInlineCalls]
  match hfn : F.call.fn with
  | none =>
    exact ⟨[], F, by simp [collectCB], by simp, rfl, rfl, rfl, rfl, by simp⟩
  | some fn =>
    by_cases hli : w.hasLineInfo fn
    · simp only [hli, not_true, if_neg, not_false_iff]
      by_cases hdt : w.dwarfTreeOk fn
      · simp only [hdt, not_true, if_neg, not_false_iff]
        obtain ⟨em, h1, h2, h3⟩ := appendInlineLoop_spec w fn
          (w.inlineStack fn (F.call.pc - if it.count > 0 then 1 else 0)) it [] F
        refine ⟨em, _, ?_, fun hne => h2.2.2.2.2.2 hne, h2.1, h2.2.1, h2.2.2.1,
          h2.2.2.2.1, h3⟩
        simp only [collectCB]
        rw [h1]
        simp
      · simp only [hdt, if_pos, not_false_iff]
        exact ⟨[], F, by simp [collectCB], by simp, rfl, rfl, rfl, rfl, by simp⟩
    · simp only [hli, if_pos, not_false_iff]
      exact ⟨[], F, by simp [collectCB], by simp, rfl, rfl, rfl, rfl, by simp⟩

/-! ## C3: a zero return address ends the stack without error -/

/-- C3: when the normal advance path computes a frame whose return
address is zero (no sigtramp hop, no stack switch taken, no error), `Next`
marks end-of-stack and still reports a frame; that frame is delivered with
`Bottom = true`, the following `Next` returns false (iteration stops), and
finalization appends no error frame. -/
theorem c3_ret_zero_ends_stack (w : World) (it ita itb itf2 : StackIterator)
    (cfr cfr2 : DwarfRegisters) (ret retaddr : Nat) (fr : Stackframe)
    (herr : it.err = none) (hat : it.atend = false)
    (hadv : advanceRegs w it = (ita, cfr, ret, retaddr))
    (hns : newStackframe w ita ret retaddr = (itb, fr))
    (hhop : sigtrampHop w { itb with frame := fr } = none)
    (hsimple : itb.opts.simple = false)
    (hsw : w.switchStack { itb with frame := fr } cfr = (false, itf2, cfr2))
    (hret : itf2.frame.ret = 0)
    (herr2 : itf2.err = none) :
    StackIterator.Next w it = (true, { itf2 with atend := true }) ∧
    ({ itf2 with atend := true } : StackIterator).Frame.bottom = true ∧
    StackIterator.Next w { itf2 with atend := true } = (false, { itf2 with atend := true }) ∧
    ∀ frames, stacktraceFinalize { itf2 with atend := true } frames = .ok frames := by
  refine ⟨?_, rfl, ?_, ?_⟩
  · simp only [StackIterator.Next, herr, hat, Option.isSome_none, Bool.false_eq_true,
      or_self, if_false, hadv, hns, hhop, hsimple, Bool.not_false, not_false_iff,
      if_true, hsw, hret, if_pos]
  · simp [StackIterator.Next]
  · intro frames
    simp [stacktraceFinalize, herr2]

/-- Register file for the C3 witness: SP (31) holds 0x200. -/
def c3Regs : DwarfRegisters :=
  { staticBase := 0, regs := fun n => if n = 31 then some ⟨0x200⟩ else none,
    pcRegNum := 32, spRegNum := 31, bpRegNum := 29, lrRegNum := 30,
    cfa := 0, frameBase := 0 }

/-- Iterator for the C3 witness. -/
def c3It : StackIterator :=
  { pc := 0x100, top := true, atend := false, sigret := false,
    frame := emptyStackframe, err := none, stackhi := 0, systemstack := false,
    regs := c3Regs, g := none, count := 0, opts := ⟨false, false, false⟩ }

/-- World for the C3 witness: CFA = SP, return address rule `Offset(-8)`,
and the word at the slot 0x1f8 is zero. -/
def c3World : World :=
  { trivWorld with
      readWord := fun addr _ => if addr = 0x1f8 then some 0 else none,
      frameCtxForPC := fun _ =>
        { cfa := .cfaRule 31 0, regs := [(32, .offset (-8))], retAddrReg := 32 } }

/-- The iterator state after advancing and building the frame in the C3
witness world. -/
def c3Post : StackIterator :=
  { (newStackframe c3World (advanceRegs c3World c3It).1
      (advanceRegs c3World c3It).2.2.1 (advanceRegs c3World c3It).2.2.2).1 with
    frame := (newStackframe c3World (advanceRegs c3World c3It).1
      (advanceRegs c3World c3It).2.2.1 (advanceRegs c3World c3It).2.2.2).2 }

/-- Witness for C3 at the concrete world `c3World`. -/
theorem c3_ret_zero_ends_stack_witness :
    StackIterator.Next c3World c3It = (true, { c3Post with atend := true }) ∧
    ({ c3Post with atend := true } : StackIterator).Frame.bottom = true ∧
    StackIterator.Next c3World { c3Post with atend := true } =
      (false, { c3Post with atend := true }) ∧
    ∀ frames, stacktraceFinalize { c3Post with atend := true } frames = .ok frames :=
  c3_ret_zero_ends_stack c3World c3It
    (advanceRegs c3World c3It).1
    (newStackframe c3World (advanceRegs c3World c3It).1
      (advanceRegs c3World c3It).2.2.1 (advanceRegs c3World c3It).2.2.2).1
    c3Post
    (advanceRegs c3World c3It).2.1 (advanceRegs c3World c3It).2.1
    (advanceRegs c3World c3It).2.2.1 (advanceRegs c3World c3It).2.2.2
    (newStackframe c3World (advanceRegs c3World c3It).1
      (advanceRegs c3World c3It).2.2.1 (advanceRegs c3World c3It).2.2.2).2
    rfl rfl rfl rfl rfl rfl rfl (by decide) rfl

/-! ## C9: maximum depth 0 -/

/-- C9 (amended): a call with maximum depth 0 returns exactly one frame
provided the first delivered frame emits no inline frames (its call
function is unknown, has no line info, has no DWARF tree, or has an empty
inline stack) and the iteration recorded no error. The counterexample
below shows that inline expansion breaks the claim as stated. -/
theorem c9_depth_zero_single_frame (fuel : Nat) (w : World)
    (it it1 : StackIterator)
    (huseG : it.opts.useG = false)
    (hN : StackIterator.Next w it = (true, it1))
    (hfn : (StackIterator.Frame it1).call.fn = none ∨
      ∃ fn, (StackIterator.Frame it1).call.fn = some fn ∧
        (w.hasLineInfo fn = false ∨ w.dwarfTreeOk fn = false ∨
          w.inlineStack fn
            ((StackIterator.Frame it1).call.pc - if it1.count > 0 then 1 else 0) = []))
    (herr : it1.err = none) :
    stacktrace (fuel + 1) w it 0 = .ok [StackIterator.Frame it1] := by
  have hap : appendInlineCalls w (depthCB 0) it1 [] (StackIterator.Frame it1) =
      ({ it1 with count := it1.count + 1 }, [StackIterator.Frame it1], false) := by
    rcases hfn with hfn | ⟨fn, hfn, hcase⟩
    · simp [appendInlineCalls, hfn, depthCB]
    · rcases hcase with hli | hdt | hinl
      · simp [appendInlineCalls, hfn, hli, depthCB]
      · by_cases hli : w.hasLineInfo fn
        · simp [appendInlineCalls, hfn, hli, hdt, depthCB]
        · simp [appendInlineCalls, hfn, hli, depthCB]
      · by_cases hli : w.hasLineInfo fn
        · by_cases hdt : w.dwarfTreeOk fn
          · simp [appendInlineCalls, hfn, hli, hdt, hinl, appendInlineLoop, depthCB]
          · simp [appendInlineCalls, hfn, hli, hdt, depthCB]
        · simp [appendInlineCalls, hfn, hli, depthCB]
  simp only [stacktrace]
  rw [if_neg (by norm_num)]
  simp only [stacktraceFunc, huseG, false_and, if_neg, Bool.false_eq_true, not_false_iff]
  simp only [stacktraceLoop, hN, if_pos, hap]
  simp [stacktraceFinalize, herr]

/-- Witness for C9 (amended): in `c3World` the trace of depth 0 returns
exactly the single bottom frame. -/
theorem c9_depth_zero_single_frame_witness :
    stacktrace 1 c3World c3It 0 =
      .ok [StackIterator.Frame { c3Post with atend := true }] :=
  c9_depth_zero_single_frame 0 c3World c3It { c3Post with atend := true }
    rfl rfl (Or.inl rfl) rfl

/-- The physical function used in the C9 counterexample. -/
def c9Fn : Function := ⟨"main.f", 0x100, 0x140, 11⟩

/-- World for the C9 counterexample: like `c3World` (first frame ends the
stack at once), but the PC resolves to `main.f`, which carries one inline
call entry. -/
def c9World : World :=
  { trivWorld with
      readWord := fun addr _ => if addr = 0x1f8 then some 0 else none,
      frameCtxForPC := fun _ =>
        { cfa := .cfaRule 31 0, regs := [(32, .offset (-8))], retAddrReg := 32 },
      pcToLine := fun _ => ("f.go", 3, some c9Fn),
      hasLineInfo := fun _ => true,
      dwarfTreeOk := fun _ => true,
      inlineStack := fun _ _ => [⟨some "main.inl", some 1, some 7, 99⟩],
      filePath := fun _ _ => some "f.go" }

set_option maxRecDepth 4000 in
/-- Counterexample for C9 as stated: with one inline entry on the first
(and only) physical frame, a depth-0 stacktrace returns two frames, not
exactly one — `appendInlineCalls` ignores the callback verdict for
synthetic frames. -/
theorem c9_depth_zero_counterexample :
    (stacktrace 2 c9World c3It 0).toOption.map List.length = some 2 := by
  decide

/-! ## C10: the one-time goroutine-register restart -/

/-- The live goroutine of the C10 counterexample: saved scheduler PC
0x500 and SP 0x700. -/
def c10G : G := ⟨1, 0x500, 0x700, 0x710, 0, 0x600, 0x800, false⟩

/-- World for the C10 counterexample: the CFA rule is `Undefined` at the
initial PC 0x100; unwinding from the goroutine's saved PC 0x500 would
succeed (CFA = SP, return address slot readable). -/
def c10World : World :=
  { trivWorld with
      frameCtxForPC := fun pc =>
        if pc = 0x100 then { cfa := .undefined, regs := [], retAddrReg := 0 }
        else { cfa := .cfaRule 31 0, regs := [(32, .offset (-8))], retAddrReg := 32 },
      readWord := fun addr _ => if addr = 0x6f8 then some 0 else none }

/-- Iterator for the C10 counterexample: a live goroutine is available
and simple tracing is not requested. -/
def c10It : StackIterator :=
  { pc := 0x100, top := true, atend := false, sigret := false,
    frame := emptyStackframe, err := none, stackhi := 0x800,
    systemstack := false, regs := c3Regs, g := some c10G, count := 0,
    opts := ⟨false, false, false⟩ }

set_option maxRecDepth 4000 in
/-- Counterexample for C10 as stated: a CFA-undefined failure on the very
first frame, with a live goroutine and without the simple option, does
*not* restart the trace from the goroutine's saved registers. The CFA
failure produces a zero return-address slot, so the delivered frame is the
empty `Stackframe{}` whose `SystemStack` is false, the recorded error is
the NULL-address error, and the restart condition fails: the result is the
empty frame plus an error frame, and no frame comes from the goroutine's
saved PC 0x500. -/
theorem c10_cfa_undefined_no_restart_counterexample :
    (stacktrace 5 c10World c10It 10).toOption.map
      (fun l => (l.length, l.all (fun fr => fr.current.pc != 0x500),
        decide ((l.getD 1 emptyStackframe).err = some .nullAddr))) =
      some (2, true, true) := by
  decide

/-- The iterator state produced by `switchToGoroutineStack` on a
non-link-register architecture, starting from the error-cleared,
`StacktraceG`-enabled state that the restart path of `stacktrace`
builds. -/
def restartState (it1 : StackIterator) (g : G) : StackIterator :=
  { it1 with
    err := none
    opts := { it1.opts with useG := true }
    systemstack := false
    top := false
    pc := g.pc
    regs := (it1.regs.setRegVal it1.regs.spRegNum g.sp).addReg it1.regs.bpRegNum (some (DwarfRegisterFromUint64 g.bp)) }

/-- C10 (amended): the one-time restart from the goroutine's saved
scheduler registers happens when the first run fails after delivering
exactly one frame and that frame is marked as a system-stack frame, a live
goroutine is available and simple tracing is off; the whole trace then
finalizes the single rerun started from the goroutine's saved PC and SP.
(A CFA-undefined failure never satisfies this: its delivered frame is the
empty frame, which is not a system-stack frame — see the
counterexample.) -/
theorem c10_first_frame_restart (fuel : Nat) (w : World)
    (it it1 : StackIterator) (f : Stackframe) (e : StackErr) (g : G)
    (depth : Int)
    (hd : ¬ depth < 0)
    (hrun1 : stacktraceFunc fuel w (depthCB depth) it [] = (it1, [f]))
    (herr : it1.err = some e)
    (hsys : f.systemStack = true)
    (hg : it1.g = some g)
    (hsimple : it1.opts.simple = false)
    (husesLR : w.usesLR = false)
    (hspbp : it1.regs.spRegNum ≠ it1.regs.bpRegNum) :
    ∃ it2,
      switchToGoroutineStack w
        { it1 with err := none, opts := { it1.opts with useG := true } } = .ok it2 ∧
      it2.pc = g.pc ∧ it2.regs.SP = g.sp ∧
      stacktrace fuel w it depth =
        stacktraceFinalize
          (stacktraceLoop w (depthCB depth) fuel { it2 with top := true } [f]).1
          (stacktraceLoop w (depthCB depth) fuel { it2 with top := true } [f]).2 := by
  have hsw : switchToGoroutineStack w
      { it1 with err := none, opts := { it1.opts with useG := true } } =
      .ok (restartState it1 g) := by
    simp [switchToGoroutineStack, restartState, hg, husesLR]
  refine ⟨restartState it1 g, hsw, rfl, ?_, ?_⟩
  · simp [restartState, DwarfRegisters.SP, DwarfRegisters.setRegVal,
      DwarfRegisters.addReg, DwarfRegisters.uint64Val, hspbp]
  · simp only [stacktrace]
    rw [if_neg hd]
    simp only [hrun1]
    rw [if_pos (by
      refine ⟨by simp [herr], by simp, by simp [hg], by simp [hsys], by simp [hsimple]⟩)]
    simp only [stacktraceFunc]
    rw [if_pos (by simp [hg])]
    rw [hsw]

/-- Goroutine for the C10 witness (a system-stack situation with saved
scheduler registers). -/
def c10bG : G := ⟨1, 0x500, 0x700, 0x710, 0, 0x600, 0x800, true⟩

/-- World for the C10 witness: the return-address rule is `Undefined` at
the initial PC 0x100 (so the first frame fails with an undefined return
address but a non-zero return-address slot, producing a real system-stack
frame). -/
def c10bWorld : World :=
  { trivWorld with
      frameCtxForPC := fun pc =>
        if pc = 0x100 then
          { cfa := .cfaRule 31 0, regs := [(32, .undefined)], retAddrReg := 32 }
        else { cfa := .cfaRule 31 0, regs := [(32, .offset (-8))], retAddrReg := 32 },
      readWord := fun addr _ => if addr = 0x6f8 then some 0 else none }

/-- Iterator for the C10 witness: on the system stack with a live
goroutine. -/
def c10bIt : StackIterator :=
  { pc := 0x100, top := true, atend := false, sigret := false,
    frame := emptyStackframe, err := none, stackhi := 0x800,
    systemstack := true, regs := c3Regs, g := some c10bG, count := 0,
    opts := ⟨false, false, false⟩ }

/-- The iterator state after the failing first run in the C10 witness. -/
def c10bIt1 : StackIterator := (stacktraceFunc 3 c10bWorld (depthCB 10) c10bIt []).1

/-- The single (system-stack) frame delivered by the failing first run in
the C10 witness. -/
def c10bF : Stackframe :=
  (stacktraceFunc 3 c10bWorld (depthCB 10) c10bIt []).2.headD emptyStackframe

set_option maxRecDepth 8000 in
/-- Witness for C10 (amended) at the concrete world `c10bWorld`. -/
theorem c10_first_frame_restart_witness :
    ∃ it2,
      switchToGoroutineStack c10bWorld
        { c10bIt1 with err := none, opts := { c10bIt1.opts with useG := true } } =
        .ok it2 ∧
      it2.pc = c10bG.pc ∧ it2.regs.SP = c10bG.sp ∧
      stacktrace 3 c10bWorld c10bIt 10 =
        stacktraceFinalize
          (stacktraceLoop c10bWorld (depthCB 10) 3 { it2 with top := true } [c10bF]).1
          (stacktraceLoop c10bWorld (depthCB 10) 3 { it2 with top := true } [c10bF]).2 :=
  c10_first_frame_restart 3 c10bWorld c10bIt c10bIt1 c10bF
    (.undefinedReturnAddr 0x100) c10bG 10 (by norm_num) rfl rfl (by decide) rfl
    rfl rfl (by decide)

/-! ## C8: range-over-func result length parity -/

/-- `rdTopmost` preserves the number of frames. -/
theorem rdTopmost_length (frames : List Stackframe) (i : Nat) (d : Defer) :
    (rdTopmost frames i d).length = frames.length := by
  unfold rdTopmost; split <;> simp

/-- `rdAttach` preserves the number of frames. -/
theorem rdAttach_length (frames : List Stackframe) (i : Nat) (d : Defer) :
    (rdAttach frames i d).length = frames.length := by
  unfold rdAttach
  rw [List.length_set, rdTopmost_length]

/-- The defer-correlation loop never adds or removes frames. -/
theorem readDefersGo_length :
    ∀ (fuel : Nat) (frames : List Stackframe) (i : Nat) (cur : Option Defer)
      (rest : List Defer),
      (readDefersGo fuel frames i cur rest).length = frames.length := by
  intro fuel
  induction fuel with
  | zero => intro frames i cur rest; rfl
  | succ fuel ih =>
    intro frames i cur rest
    cases cur with
    | none => rfl
    | some d =>
      simp only [readDefersGo]
      split
      · split
        · simp
        · split
          · rfl
          · split
            · rw [ih, rdTopmost_length]
            · rw [ih, rdAttach_length]
      · rfl

/-- `readDefers` preserves the number of frames. -/
theorem readDefers_length (frames : List Stackframe) (chain : List Defer) :
    (readDefers frames chain).length = frames.length := by
  match chain with
  | [] => rfl
  | d :: rest => exact readDefersGo_length _ frames 0 (some d) rest

/-- C8: (1) every `.ok` result of `rangeFuncStackTrace` has even length;
(2) the finalization step returns the "incomplete range-over-func
stacktrace" error whenever the collected frame list has odd length and
the earlier checks pass; (3) `rangeFuncStackTrace` for a goroutine is
exactly that finalization applied to the iteration outcome. -/
theorem c8_rangefunc_even_length :
    (∀ (fuel : Nat) (w : World) (g? : Option G) (chain : List Defer)
       (frames : List Stackframe),
       rangeFuncStackTrace fuel w g? chain = .ok frames → frames.length % 2 = 0) ∧
    (∀ (e : Option StackErr) (st : RFState) (chain : List Defer),
       e = none → st.nonMonotonicSP = false → st.stage = doneStage →
       st.frames.length % 2 = 1 → rfFinalize e st chain = .error .incomplete) ∧
    (∀ (fuel : Nat) (w : World) (g : G) (chain : List Defer),
       rangeFuncStackTrace fuel w (some g) chain =
         rfFinalize (rfRun fuel w g).1.err (rfRun fuel w g).2 chain) := by
  refine ⟨?_, ?_, fun _ _ _ _ => rfl⟩
  · intro fuel w g? chain frames h
    match g? with
    | none =>
      simp only [rangeFuncStackTrace, Except.ok.injEq] at h
      simp [← h]
    | some g =>
      simp only [rangeFuncStackTrace, rfFinalize] at h
      match he : (rfRun fuel w g).1.err with
      | some e => rw [he] at h; exact absurd h (by simp)
      | none =>
        rw [he] at h
        by_cases hnm : (rfRun fuel w g).2.nonMonotonicSP = true
        · rw [if_pos hnm] at h; exact absurd h (by simp)
        · rw [if_neg hnm] at h
          by_cases hst : (rfRun fuel w g).2.stage ≠ doneStage
          · rw [if_pos hst] at h; exact absurd h (by simp)
          · rw [if_neg hst] at h
            by_cases hlen : (rfRun fuel w g).2.frames.length % 2 ≠ 0
            · rw [if_pos hlen] at h; exact absurd h (by simp)
            · rw [if_neg hlen] at h
              have : frames = readDefers (rfRun fuel w g).2.frames chain := by
                simpa using h.symm
              rw [this, readDefers_length]
              exact not_ne_iff.mp hlen
  · intro e st chain he hnm hst hlen
    subst he
    simp only [rfFinalize]
    rw [if_neg (by simp [hnm])]
    rw [if_neg (by simp [hst])]
    rw [if_pos (by simp [hlen])]

/-- An odd-length, stage-done state used by the C8 witness. -/
def c8OddState : RFState :=
  { frames := [emptyStackframe], stage := doneStage, addRetFrame := false,
    rangeParent := none, nonMonotonicSP := false, closurePtr := 0 }

/-- Witness for C8: a nil goroutine yields the empty (even-length) result,
and the finalization of an odd (length-1) collected list is the
incomplete-stacktrace error. -/
theorem c8_rangefunc_even_length_witness :
    (rangeFuncStackTrace 0 trivWorld none [] = .ok [] ∧
      ([] : List Stackframe).length % 2 = 0) ∧
    rfFinalize none c8OddState [] = .error .incomplete :=
  ⟨⟨rfl, c8_rangefunc_even_length.1 0 trivWorld none [] [] rfl⟩,
    c8_rangefunc_even_length.2.1 none c8OddState [] rfl rfl rfl (by decide)⟩

/-! ## C6: the SP-decrease corruption check -/

/-- Reading back the element just set. -/
theorem getD_set_self {α : Type} (e : α) (l : List α) (i : Nat) (a : α)
    (h : i < l.length) : (l.set i a).getD i e = a := by
  simp [List.getD_eq_getElem?_getD, List.getElem?_set_self', List.getElem?_eq_getElem h]

/-- Setting one index leaves the others unchanged. -/
theorem getD_set_other {α : Type} (e : α) (l : List α) (i j : Nat) (a : α)
    (h : j ≠ i) : (l.set i a).getD j e = l.getD j e := by
  simp [List.getD_eq_getElem?_getD, List.getElem?_set_ne (Ne.symm h)]

/-- `rdTopmost` does not change the `Defers` list of frame `i`. -/
theorem rdTopmost_getD_defers (frames : List Stackframe) (i : Nat) (d : Defer)
    (hi : i < frames.length) :
    ((rdTopmost frames i d).getD i emptyStackframe).defers =
      (frames.getD i emptyStackframe).defers := by
  unfold rdTopmost
  split
  · rw [getD_set_self _ _ _ _ hi]
  · rfl

/-- `rdTopmost` does not change the registers of frame `i`. -/
theorem rdTopmost_getD_regs (frames : List Stackframe) (i : Nat) (d : Defer)
    (hi : i < frames.length) :
    ((rdTopmost frames i d).getD i emptyStackframe).regs =
      (frames.getD i emptyStackframe).regs := by
  unfold rdTopmost
  split
  · rw [getD_set_self _ _ _ _ hi]
  · rfl

/-- `rdTopmost` leaves frames other than `i` unchanged. -/
theorem rdTopmost_getD_other (frames : List Stackframe) (i j : Nat) (d : Defer)
    (h : j ≠ i) :
    (rdTopmost frames i d).getD j emptyStackframe =
      frames.getD j emptyStackframe := by
  unfold rdTopmost
  split
  · rw [getD_set_other _ _ _ _ _ h]
  · rfl

/-- The value of frame `i` after `rdAttach`. -/
theorem rdAttach_getD_self (frames : List Stackframe) (i : Nat) (d : Defer)
    (hi : i < frames.length) :
    (rdAttach frames i d).getD i emptyStackframe =
      ((rdTopmost frames i d).getD i emptyStackframe).addDefers (deferPayload d) := by
  unfold rdAttach
  exact getD_set_self _ _ _ _ (by rw [rdTopmost_length]; exact hi)

/-- `rdAttach` leaves frames other than `i` unchanged. -/
theorem rdAttach_getD_other (frames : List Stackframe) (i j : Nat) (d : Defer)
    (h : j ≠ i) :
    (rdAttach frames i d).getD j emptyStackframe =
      frames.getD j emptyStackframe := by
  unfold rdAttach
  rw [getD_set_other _ _ _ _ _ h, rdTopmost_getD_other _ _ _ _ h]

/-- One unreadable-defer step of the correlation loop: attach the
unreadable node to the current frame and stop. -/
theorem readDefersGo_unreadable_step (fuel : Nat) (frames : List Stackframe)
    (i : Nat) (d : Defer) (rest : List Defer)
    (hi : i < frames.length) (hu : d.unreadable.isSome) :
    readDefersGo (fuel + 1) frames i (some d) rest =
      frames.set i ((frames.getD i emptyStackframe).addDefer d) := by
  simp only [readDefersGo]
  rw [if_pos hi, if_pos hu]

/-- One attaching step of the correlation loop: record the topmost defer,
append the payload, and move to the next node of the chain. -/
theorem readDefersGo_attach_step (fuel : Nat) (frames : List Stackframe)
    (i : Nat) (d : Defer) (rest : List Defer)
    (hi : i < frames.length)
    (hread : d.unreadable = none)
    (herr : (frames.getD i emptyStackframe).err = none)
    (hskip : ¬ ((frames.getD i emptyStackframe).systemStack = true ∨
        (frames.getD i emptyStackframe).inlined = true ∨
        d.sp ≥ toUint64 (frames.getD i emptyStackframe).regs.cfa)) :
    readDefersGo (fuel + 1) frames i (some d) rest =
      readDefersGo fuel (rdAttach frames i d) i (d.Next rest).1 (d.Next rest).2 := by
  simp only [readDefersGo]
  rw [if_pos hi, if_neg (by simp [hread]), if_neg (by rw [herr]; simp), if_neg hskip]

/-- One skipping step of the correlation loop: the cursor advances past
frame `i` (only the topmost-defer slot may change). -/
theorem readDefersGo_skip_step (fuel : Nat) (frames : List Stackframe)
    (i : Nat) (d : Defer) (rest : List Defer)
    (hi : i < frames.length)
    (hread : d.unreadable = none)
    (herr : (frames.getD i emptyStackframe).err = none)
    (hskip : (frames.getD i emptyStackframe).systemStack = true ∨
        (frames.getD i emptyStackframe).inlined = true ∨
        d.sp ≥ toUint64 (frames.getD i emptyStackframe).regs.cfa) :
    readDefersGo (fuel + 1) frames i (some d) rest =
      readDefersGo fuel (rdTopmost frames i d) (i + 1) (some d) rest := by
  simp only [readDefersGo]
  rw [if_pos hi, if_neg (by simp [hread]), if_neg (by rw [herr]; simp), if_pos hskip]

/-- The `Defers` field after `addDefer`. -/
theorem addDefer_defers (f : Stackframe) (d : Defer) :
    (f.addDefer d).defers = f.defers ++ [d] := rfl

/-- The `Defers` field after `addDefers`. -/
theorem addDefers_defers (f : Stackframe) (ds : List Defer) :
    (f.addDefers ds).defers = f.defers ++ ds := rfl

/-- C6: when the correlation loop attaches a readable defer `d` to frame
`i` and following the link yields a node `d'` whose SP strictly
decreased, `Defer.Next` marks that node unreadable with the
"SP decreased" corrupted-defer-list error; the loop then attaches the
marked node to the same frame `i` and stops walking: frame `i`'s defers
become the old list plus `d`'s payload plus the marked node, and no other
frame changes. -/
theorem c6_sp_decreased_attach_stop (fuel : Nat) (frames : List Stackframe)
    (i : Nat) (d d' : Defer) (rest : List Defer)
    (hi : i < frames.length)
    (hread : d.unreadable = none)
    (herr : (frames.getD i emptyStackframe).err = none)
    (hskip : ¬ ((frames.getD i emptyStackframe).systemStack = true ∨
        (frames.getD i emptyStackframe).inlined = true ∨
        d.sp ≥ toUint64 (frames.getD i emptyStackframe).regs.cfa))
    (hdec : d'.sp < d.sp) :
    (d.Next (d' :: rest)).1 = some { d' with unreadable := some errSPDecreased } ∧
    ((readDefersGo (fuel + 2) frames i (some d) (d' :: rest)).getD i
        emptyStackframe).defers =
      (frames.getD i emptyStackframe).defers ++ deferPayload d ++
        [{ d' with unreadable := some errSPDecreased }] ∧
    ∀ j, j ≠ i →
      (readDefersGo (fuel + 2) frames i (some d) (d' :: rest)).getD j
          emptyStackframe =
        frames.getD j emptyStackframe := by
  have hnext : d.Next (d' :: rest) =
      (some { d' with unreadable := some errSPDecreased }, rest) := by
    simp [Defer.Next, hdec]
  have hi2 : i < (rdAttach frames i d).length := by
    rw [rdAttach_length]; exact hi
  have hout : readDefersGo (fuel + 2) frames i (some d) (d' :: rest) =
      (rdAttach frames i d).set i
        (((rdAttach frames i d).getD i emptyStackframe).addDefer
          { d' with unreadable := some errSPDecreased }) := by
    rw [readDefersGo_attach_step (fuel + 1) frames i d (d' :: rest) hi hread herr hskip]
    rw [hnext]
    exact readDefersGo_unreadable_step fuel (rdAttach frames i d) i _ rest hi2 (by simp)
  refine ⟨by rw [hnext], ?_, ?_⟩
  · rw [hout, getD_set_self _ _ _ _ hi2, rdAttach_getD_self frames i d hi]
    rw [addDefer_defers, addDefers_defers, rdTopmost_getD_defers frames i d hi]
  · intro j hj
    rw [hout, getD_set_other _ _ _ _ _ hj, rdAttach_getD_other _ _ _ _ hj]

/-- Frames for the C6 witness: one clean frame with CFA 0x1100. -/
def c6Frames : List Stackframe :=
  [{ emptyStackframe with regs := { emptyDwarfRegisters with cfa := 0x1100 } }]

/-- Witness for C6 at a concrete frame list and defer chain (SPs 0x1000
then 0x900, a decrease). -/
theorem c6_sp_decreased_attach_stop_witness :
    ((⟨0x1000, [], none⟩ : Defer).Next [⟨0x900, [], none⟩]).1 =
      some { sp := 0x900, rangefunc := [], unreadable := some errSPDecreased } ∧
    ((readDefersGo 2 c6Frames 0 (some ⟨0x1000, [], none⟩) [⟨0x900, [], none⟩]).getD 0
        emptyStackframe).defers =
      (c6Frames.getD 0 emptyStackframe).defers ++ deferPayload ⟨0x1000, [], none⟩ ++
        [{ sp := 0x900, rangefunc := [], unreadable := some errSPDecreased }] ∧
    ∀ j, j ≠ 0 →
      (readDefersGo 2 c6Frames 0 (some ⟨0x1000, [], none⟩) [⟨0x900, [], none⟩]).getD j
          emptyStackframe =
        c6Frames.getD j emptyStackframe :=
  c6_sp_decreased_attach_stop 0 c6Frames 0 ⟨0x1000, [], none⟩ ⟨0x900, [], none⟩ []
    (by decide) rfl rfl (by decide) (by decide)

/-! ## C4: defer assignment invariants -/

/-- The registers are untouched by `addDefers`. -/
theorem addDefers_regs (f : Stackframe) (ds : List Defer) :
    (f.addDefers ds).regs = f.regs := rfl

/-- The registers are untouched by `addDefer`. -/
theorem addDefer_regs (f : Stackframe) (d : Defer) :
    (f.addDefer d).regs = f.regs := rfl

/-- Frames the cursor has already passed are never modified again. -/
theorem readDefersGo_untouched_below :
    ∀ (fuel : Nat) (frames : List Stackframe) (i : Nat) (cur : Option Defer)
      (rest : List Defer) (j : Nat), j < i →
      (readDefersGo fuel frames i cur rest).getD j emptyStackframe =
        frames.getD j emptyStackframe := by
  intro fuel
  induction fuel with
  | zero => intro frames i cur rest j hj; rfl
  | succ fuel ih =>
    intro frames i cur rest j hj
    cases cur with
    | none => rfl
    | some d =>
      simp only [readDefersGo]
      split
      · split
        · exact getD_set_other _ _ _ _ _ (Nat.ne_of_lt hj)
        · split
          · rfl
          · split
            · rw [ih _ _ _ _ _ (Nat.lt_succ_of_lt hj)]
              exact rdTopmost_getD_other _ _ _ _ (Nat.ne_of_lt hj)
            · rw [ih _ _ _ _ _ hj]
              exact rdAttach_getD_other _ _ _ _ (Nat.ne_of_lt hj)
      · rfl

/-- The loop only appends to the `Defers` list of the current frame. -/
theorem readDefersGo_defers_extend :
    ∀ (fuel : Nat) (frames : List Stackframe) (i : Nat) (cur : Option Defer)
      (rest : List Defer), ∃ tl,
      ((readDefersGo fuel frames i cur rest).getD i emptyStackframe).defers =
        (frames.getD i emptyStackframe).defers ++ tl := by
  intro fuel
  induction fuel with
  | zero => intro frames i cur rest; exact ⟨[], by simp [readDefersGo]⟩
  | succ fuel ih =>
    intro frames i cur rest
    cases cur with
    | none => exact ⟨[], by simp [readDefersGo]⟩
    | some d =>
      simp only [readDefersGo]
      split
      · split
        · refine ⟨[d], ?_⟩
          rw [getD_set_self _ _ _ _ (by assumption), addDefer_defers]
        · split
          · exact ⟨[], by simp⟩
          · split
            · refine ⟨[], ?_⟩
              rw [readDefersGo_untouched_below fuel _ (i + 1) _ _ i (Nat.lt_succ_self i)]
              rw [rdTopmost_getD_defers _ _ _ (by assumption)]
              simp
            · obtain ⟨tl', htl'⟩ := ih (rdAttach frames i d) i (d.Next rest).1 (d.Next rest).2
              refine ⟨deferPayload d ++ tl', ?_⟩
              rw [htl', rdAttach_getD_self _ _ _ (by assumption), addDefers_defers,
                rdTopmost_getD_defers _ _ _ (by assumption)]
              simp [List.append_assoc]
      · exact ⟨[], by simp⟩

/-- The loop preserves the per-frame invariant "every recorded defer is
either unreadable or has SP below the frame's CFA", provided the chain
carries no nested rangefunc lists. -/
theorem readDefersGo_sp_lt_cfa :
    ∀ (fuel : Nat) (frames : List Stackframe) (i : Nat) (cur : Option Defer)
      (rest : List Defer),
      (∀ dc, cur = some dc → dc.rangefunc = []) →
      (∀ dc ∈ rest, dc.rangefunc = []) →
      (∀ j, ∀ x ∈ (frames.getD j emptyStackframe).defers,
        x.unreadable.isSome = true ∨
          x.sp < toUint64 (frames.getD j emptyStackframe).regs.cfa) →
      ∀ j, ∀ x ∈ ((readDefersGo fuel frames i cur rest).getD j emptyStackframe).defers,
        x.unreadable.isSome = true ∨
          x.sp < toUint64
            ((readDefersGo fuel frames i cur rest).getD j emptyStackframe).regs.cfa := by
  intro fuel
  induction fuel with
  | zero => intro frames i cur rest _ _ hP j x hx; exact hP j x hx
  | succ fuel ih =>
    intro frames i cur rest hcur hrest hP j x hx
    cases cur with
    | none => exact hP j x hx
    | some d =>
      by_cases hi : i < frames.length
      case neg =>
        have heq : readDefersGo (fuel + 1) frames i (some d) rest = frames := by
          simp only [readDefersGo]; rw [if_neg hi]
        rw [heq] at hx ⊢
        exact hP j x hx
      case pos =>
        by_cases hu : d.unreadable.isSome = true
        case pos =>
          rw [readDefersGo_unreadable_step fuel frames i d rest hi hu] at hx ⊢
          by_cases hj : j = i
          · subst hj
            rw [getD_set_self _ _ _ _ hi] at hx ⊢
            rw [addDefer_defers] at hx
            rcases List.mem_append.mp hx with hold | hnew
            · rw [addDefer_regs]
              exact hP j x hold
            · left
              rw [List.mem_singleton.mp hnew]
              exact hu
          · rw [getD_set_other _ _ _ _ _ hj] at hx ⊢
            exact hP j x hx
        case neg =>
          have hread : d.unreadable = none := by
            cases hOpt : d.unreadable
            · rfl
            · exact absurd (by simp [hOpt]) hu
          by_cases he : (frames.getD i emptyStackframe).err.isSome = true
          case pos =>
            have heq : readDefersGo (fuel + 1) frames i (some d) rest = frames := by
              simp only [readDefersGo]
              rw [if_pos hi, if_neg (by simp [hread]), if_pos he]
            rw [heq] at hx ⊢
            exact hP j x hx
          case neg =>
            have herr : (frames.getD i emptyStackframe).err = none := by
              cases hOpt : (frames.getD i emptyStackframe).err
              · rfl
              · exact absurd (by rw [hOpt]; rfl) he
            by_cases hskip : (frames.getD i emptyStackframe).systemStack = true ∨
                (frames.getD i emptyStackframe).inlined = true ∨
                d.sp ≥ toUint64 (frames.getD i emptyStackframe).regs.cfa
            case pos =>
              rw [readDefersGo_skip_step fuel frames i d rest hi hread herr hskip] at hx ⊢
              refine ih (rdTopmost frames i d) (i + 1) (some d) rest hcur hrest ?_ j x hx
              intro k y hy
              by_cases hk : k = i
              · subst hk
                rw [rdTopmost_getD_defers _ _ _ hi] at hy
                rw [rdTopmost_getD_regs _ _ _ hi]
                exact hP k y hy
              · rw [rdTopmost_getD_other _ _ _ _ hk] at hy ⊢
                exact hP k y hy
            case neg =>
              rw [readDefersGo_attach_step fuel frames i d rest hi hread herr hskip] at hx ⊢
              refine ih (rdAttach frames i d) i (d.Next rest).1 (d.Next rest).2
                ?_ ?_ ?_ j x hx
              · intro dc hdc
                match rest, hdc with
                | d' :: r, hdc =>
                  simp only [Defer.Next, Option.some.injEq] at hdc
                  have hrf : dc.rangefunc = d'.rangefunc := by rw [← hdc]
                  rw [hrf]
                  exact hrest d' (List.mem_cons_self d' r)
              · intro dc hdc
                match rest with
                | [] => simp [Defer.Next] at hdc
                | d' :: r =>
                  simp only [Defer.Next] at hdc
                  exact hrest dc (List.mem_cons_of_mem d' hdc)
              · intro k y hy
                by_cases hk : k = i
                · subst hk
                  rw [rdAttach_getD_self _ _ _ hi, addDefers_defers] at hy
                  rw [rdAttach_getD_self _ _ _ hi, addDefers_regs,
                    rdTopmost_getD_regs _ _ _ hi]
                  rw [rdTopmost_getD_defers _ _ _ hi] at hy
                  rcases List.mem_append.mp hy with hold | hnew
                  · exact hP k y hold
                  · right
                    have hpay : deferPayload d = [d] := by
                      simp [deferPayload, hcur d rfl]
                    rw [hpay, List.mem_singleton] at hnew
                    subst hnew
                    have hle := hskip
                    push_neg at hle
                    exact hle.2.2
                · rw [rdAttach_getD_other _ _ _ _ hk] at hy ⊢
                  exact hP k y hy

/-- C4 (amended): in the defer correlator, (1) the cursor advances past
frame `i` exactly in the system-stack / inlined / `SP ≥ CFA` case — the
step reduces to the same walk at `i + 1` and frame `i`'s defers are left
unchanged for good; (2) otherwise the defer's payload is attached to frame
`i`; (3) consequently, for chains without nested rangefunc lists and
initially undecorated frames, every readable attached defer satisfies
`defer.SP < frames[i].Regs.CFA`. (The originally claimed lower bound
`defer.SP ≥ frames[i+1].Regs.CFA` is false; see the counterexample.) -/
theorem c4_defer_correlation :
    (∀ (fuel : Nat) (frames : List Stackframe) (i : Nat) (d : Defer)
       (rest : List Defer),
       i < frames.length → d.unreadable = none →
       (frames.getD i emptyStackframe).err = none →
       ((frames.getD i emptyStackframe).systemStack = true ∨
         (frames.getD i emptyStackframe).inlined = true ∨
         d.sp ≥ toUint64 (frames.getD i emptyStackframe).regs.cfa) →
       readDefersGo (fuel + 1) frames i (some d) rest =
         readDefersGo fuel (rdTopmost frames i d) (i + 1) (some d) rest ∧
       ((readDefersGo (fuel + 1) frames i (some d) rest).getD i
           emptyStackframe).defers =
         (frames.getD i emptyStackframe).defers) ∧
    (∀ (fuel : Nat) (frames : List Stackframe) (i : Nat) (d : Defer)
       (rest : List Defer),
       i < frames.length → d.unreadable = none →
       (frames.getD i emptyStackframe).err = none →
       ¬ ((frames.getD i emptyStackframe).systemStack = true ∨
         (frames.getD i emptyStackframe).inlined = true ∨
         d.sp ≥ toUint64 (frames.getD i emptyStackframe).regs.cfa) →
       ∃ tl, ((readDefersGo (fuel + 1) frames i (some d) rest).getD i
           emptyStackframe).defers =
         (frames.getD i emptyStackframe).defers ++ deferPayload d ++ tl) ∧
    (∀ (frames : List Stackframe) (chain : List Defer),
       (∀ dc ∈ chain, dc.rangefunc = []) →
       (∀ f ∈ frames, f.defers = []) →
       ∀ j, ∀ x ∈ ((readDefers frames chain).getD j emptyStackframe).defers,
         x.unreadable.isSome = true ∨
           x.sp < toUint64 ((readDefers frames chain).getD j emptyStackframe).regs.cfa) := by
  refine ⟨?_, ?_, ?_⟩
  · intro fuel frames i d rest hi hread herr hskip
    refine ⟨readDefersGo_skip_step fuel frames i d rest hi hread herr hskip, ?_⟩
    rw [readDefersGo_skip_step fuel frames i d rest hi hread herr hskip]
    rw [readDefersGo_untouched_below fuel _ (i + 1) _ _ i (Nat.lt_succ_self i)]
    exact rdTopmost_getD_defers _ _ _ hi
  · intro fuel frames i d rest hi hread herr hskip
    rw [readDefersGo_attach_step fuel frames i d rest hi hread herr hskip]
    obtain ⟨tl', htl⟩ := readDefersGo_defers_extend fuel (rdAttach frames i d) i
      (d.Next rest).1 (d.Next rest).2
    refine ⟨tl', ?_⟩
    rw [htl, rdAttach_getD_self _ _ _ hi, addDefers_defers,
      rdTopmost_getD_defers _ _ _ hi]
  · intro frames chain hchain hclean
    have hP : ∀ j, ∀ x ∈ (frames.getD j emptyStackframe).defers,
        x.unreadable.isSome = true ∨
          x.sp < toUint64 (frames.getD j emptyStackframe).regs.cfa := by
      intro j x hxm
      exfalso
      have hemp : (frames.getD j emptyStackframe).defers = [] := by
        by_cases hj : j < frames.length
        · rw [List.getD_eq_getElem _ _ hj]
          exact hclean _ (List.getElem_mem hj)
        · rw [List.getD_eq_default _ _ (Nat.le_of_not_lt hj)]
          rfl
      rw [hemp] at hxm
      exact List.not_mem_nil x hxm
    match chain with
    | [] => exact hP
    | d :: rest =>
      exact readDefersGo_sp_lt_cfa _ frames 0 (some d) rest
        (fun dc h => by cases h; exact hchain d (List.mem_cons_self d rest))
        (fun dc h => hchain dc (List.mem_cons_of_mem d h))
        hP

/-- A bare frame carrying only a CFA, for the C4 scenario. -/
def c4Frame (cfa : Nat) : Stackframe :=
  { emptyStackframe with regs := { emptyDwarfRegisters with cfa := (cfa : Int) } }

/-- The frame list of the spec's deferred-call scenario: CFAs 0x1008,
0x1048, 0x1100. -/
def c4Frames : List Stackframe := [c4Frame 0x1008, c4Frame 0x1048, c4Frame 0x1100]

/-- The defer chain of the spec's deferred-call scenario: SPs 0x1000 and
0x1040. -/
def c4Chain : List Defer := [⟨0x1000, [], none⟩, ⟨0x1040, [], none⟩]

/-- Counterexample for C4 as stated: running the correlator on the spec's
own scenario (defers at SP 0x1000 and 0x1040, frames with CFA 0x1008,
0x1048, 0x1100) attaches the defer with SP 0x1000 to frame 0 and the
defer with SP 0x1040 to frame 1 — so frame 0 is not the last frame
considered — yet `0x1000 ≥ frames[1].Regs.CFA = 0x1048` is false. -/
theorem c4_counterexample :
    ((readDefers c4Frames c4Chain).getD 0 emptyStackframe).defers.map Defer.sp =
      [0x1000] ∧
    ((readDefers c4Frames c4Chain).getD 1 emptyStackframe).defers.map Defer.sp =
      [0x1040] ∧
    ¬ ((0x1000 : Nat) ≥ toUint64 ((c4Frames.getD 1 emptyStackframe).regs.cfa)) := by
  refine ⟨by decide, by decide, by decide⟩

/-- Witness for C4 (amended): a skip step (SP 0x2000 ≥ CFA 0x1008), an
attach step (SP 0x1000 < CFA 0x1008), and the invariant on the spec
scenario's full run. -/
theorem c4_defer_correlation_witness :
    (readDefersGo 1 c4Frames 0 (some ⟨0x2000, [], none⟩) [] =
       readDefersGo 0 (rdTopmost c4Frames 0 ⟨0x2000, [], none⟩) 1
         (some ⟨0x2000, [], none⟩) [] ∧
     ((readDefersGo 1 c4Frames 0 (some ⟨0x2000, [], none⟩) []).getD 0
         emptyStackframe).defers =
       (c4Frames.getD 0 emptyStackframe).defers) ∧
    (∃ tl, ((readDefersGo 1 c4Frames 0 (some ⟨0x1000, [], none⟩) []).getD 0
         emptyStackframe).defers =
       (c4Frames.getD 0 emptyStackframe).defers ++
         deferPayload ⟨0x1000, [], none⟩ ++ tl) ∧
    (∀ j, ∀ x ∈ ((readDefers c4Frames c4Chain).getD j emptyStackframe).defers,
       x.unreadable.isSome = true ∨
         x.sp < toUint64 ((readDefers c4Frames c4Chain).getD j emptyStackframe).regs.cfa) := by
  have hclean : ∀ f ∈ c4Frames, f.defers = [] := by
    intro f hf
    simp only [c4Frames, List.mem_cons, List.not_mem_nil, or_false] at hf
    rcases hf with h | h | h <;> subst h <;> rfl
  have hchain : ∀ dc ∈ c4Chain, dc.rangefunc = [] := by
    intro dc hdc
    simp only [c4Chain, List.mem_cons, List.not_mem_nil, or_false] at hdc
    rcases hdc with h | h <;> subst h <;> rfl
  exact ⟨c4_defer_correlation.1 0 c4Frames 0 ⟨0x2000, [], none⟩ []
      (by decide) rfl rfl (by decide),
    c4_defer_correlation.2.1 0 c4Frames 0 ⟨0x1000, [], none⟩ []
      (by decide) rfl rfl (by decide),
    c4_defer_correlation.2.2 c4Frames c4Chain hchain hclean⟩

end DelveStack